import Mathlib

/-!
Verification of the peer-logic core of `src/p2p/net_processing.cpp`
(SuperBitcoin).  The C++ code is shallowly embedded: the per-peer
`CNodeState` table, the global in-flight map and tallies become a
`GlobalState` record, and each C++ function under test becomes a pure
Lean function on that record.  Machine integers are modelled as `Int`
(the C++ fields are `int`/`int64_t` and never approach overflow in the
reasoned-about paths); `uint256` hashes are modelled as `Nat` with `0`
playing the role of the all-zero null hash; C++ pointers into the block
index become `Option CBlockIndexM` values, with pointer equality
represented by value equality of the indexed entries.
-/

namespace NetProcessing

abbrev NodeId := Int
abbrev Hash := Nat

/-- Conversion of a C++ bool used in integer arithmetic (`count += flag`). -/
def b2i (b : Bool) : Int := if b then 1 else 0

/-- Model of the fields of `CBlockIndex` consulted by net_processing:
height, accumulated chain work, parent link (by hash), validity level
and data/chain-tx status bits. -/
structure CBlockIndexM where
  hashBlock : Hash
  nHeight : Nat
  nChainWork : Nat
  prevHash : Option Hash
  validTree : Bool
  validChain : Bool
  haveData : Bool
  hasChainTx : Bool
deriving DecidableEq

/-- Model of `QueuedBlock` (net_processing.cpp line 68): the hash, the
optional block-index reference, whether headers were validated at
request time, and whether a `PartiallyDownloadedBlock` was allocated. -/
structure QueuedBlock where
  hash : Hash
  pindex : Option CBlockIndexM
  fValidatedHeaders : Bool
  hasPartialBlock : Bool
deriving DecidableEq

/-- Model of `CBlockReject` (pending reject notification). -/
structure CBlockRejectM where
  chRejectCode : Nat
  hashBlock : Hash
deriving DecidableEq

/-- Model of `CNodeState::ChainSyncTimeoutState`. -/
structure ChainSyncTimeoutState where
  m_timeout : Int
  m_work_header : Option CBlockIndexM
  m_sent_getheaders : Bool
  m_protect : Bool
deriving DecidableEq

/-- Model of `CNodeState` (net_processing.cpp line 115), restricted to
the fields read or written by the functions embedded below. -/
structure CNodeState where
  fCurrentlyConnected : Bool := false
  nMisbehavior : Int := 0
  fShouldBan : Bool := false
  rejects : List CBlockRejectM := []
  pindexBestKnownBlock : Option CBlockIndexM := none
  hashLastUnknownBlock : Hash := 0
  pindexLastCommonBlock : Option CBlockIndexM := none
  pindexBestHeaderSent : Option CBlockIndexM := none
  nUnconnectingHeaders : Int := 0
  fSyncStarted : Bool := false
  nHeadersSyncTimeout : Int := 0
  nStallingSince : Int := 0
  vBlocksInFlight : List QueuedBlock := []
  nDownloadingSince : Int := 0
  nBlocksInFlight : Int := 0
  nBlocksInFlightValidHeaders : Int := 0
  fPreferredDownload : Bool := false
  fPreferHeaders : Bool := false
  fPreferHeaderAndIDs : Bool := false
  fProvidesHeaderAndIDs : Bool := false
  fHaveWitness : Bool := false
  fWantsCmpctWitness : Bool := false
  fSupportsDesiredCmpctVersion : Bool := false
  m_chain_sync : ChainSyncTimeoutState := ⟨0, none, false, false⟩
  m_last_block_announcement : Int := 0
deriving DecidableEq

/-- The process-wide mutable state guarded by `cs_main`:
`mapNodeState`, `mapBlocksInFlight` (hash to owning peer; the stored
list iterator is recovered as the entry of the owner's queue with that
hash), and the four global tallies. -/
structure GlobalState where
  mapNodeState : List (NodeId × CNodeState)
  mapBlocksInFlight : List (Hash × NodeId)
  nSyncStarted : Int
  nPreferredDownload : Int
  nPeersWithValidatedDownloads : Int
  g_outbound_peers_with_protect_from_disconnect : Int
deriving DecidableEq

/-- Model of `State(nodeid)`: lookup in the per-node state map. -/
def lookupState (gs : GlobalState) (nid : NodeId) : Option CNodeState :=
  (gs.mapNodeState.find? (fun p => decide (p.1 = nid))).map Prod.snd

/-- Point update of one peer's `CNodeState` (mutation through the
`CNodeState*` returned by `State`). -/
def updateState (gs : GlobalState) (nid : NodeId) (f : CNodeState → CNodeState) :
    GlobalState :=
  { gs with mapNodeState :=
      gs.mapNodeState.map (fun p => if p.1 = nid then (p.1, f p.2) else p) }

/-- Overwrite of one peer's `CNodeState` with a computed value (the C++
code mutates the row in place through the `State` pointer). -/
def setState (gs : GlobalState) (nid : NodeId) (v : CNodeState) : GlobalState :=
  updateState gs nid (fun _ => v)

/-- Lookup in the global in-flight map (`mapBlocksInFlight.find`). -/
def mapLookup (m : List (Hash × NodeId)) (h : Hash) : Option NodeId :=
  (m.find? (fun p => decide (p.1 = h))).map Prod.snd

/-- Erasure by key from the global in-flight map (`mapBlocksInFlight.erase`). -/
def mapErase (m : List (Hash × NodeId)) (h : Hash) : List (Hash × NodeId) :=
  m.filter (fun p => decide (p.1 ≠ h))

/-- The queued-block entry of peer `nid` with hash `h` (this is what the
list iterator stored in `mapBlocksInFlight` designates). -/
def findQueued (gs : GlobalState) (nid : NodeId) (h : Hash) : Option QueuedBlock :=
  (lookupState gs nid).bind (fun st => st.vBlocksInFlight.find? (fun qb => decide (qb.hash = h)))

/-- The in-place update `MarkBlockAsReceived` performs on the owning
peer's state (net_processing.cpp lines 284-297). -/
def receivedState (now : Int) (h : Hash) (st : CNodeState) (entry : QueuedBlock) :
    CNodeState :=
  { st with
    nBlocksInFlightValidHeaders :=
      st.nBlocksInFlightValidHeaders - b2i entry.fValidatedHeaders
    nDownloadingSince :=
      if (st.vBlocksInFlight.head?.map QueuedBlock.hash) = some h then
        max st.nDownloadingSince now
      else st.nDownloadingSince
    vBlocksInFlight := st.vBlocksInFlight.eraseP (fun qb => decide (qb.hash = h))
    nBlocksInFlight := st.nBlocksInFlight - 1
    nStallingSince := 0 }

/-- The in-place update `MarkBlockAsInFlight` performs on the requesting
peer's state (net_processing.cpp lines 330-341). -/
def inFlightState (now : Int) (st : CNodeState) (qb : QueuedBlock) : CNodeState :=
  { st with
    vBlocksInFlight := st.vBlocksInFlight ++ [qb]
    nBlocksInFlight := st.nBlocksInFlight + 1
    nBlocksInFlightValidHeaders :=
      st.nBlocksInFlightValidHeaders + b2i qb.fValidatedHeaders
    nDownloadingSince := if st.nBlocksInFlight + 1 = 1 then now
                         else st.nDownloadingSince }

/-- Model of `MarkBlockAsReceived` (net_processing.cpp line 277).
`now` is `GetTimeMicros()`.  Returns whether the block was in flight
together with the updated state.  The branches marked unreachable
correspond to C++ dereferencing the stored owner/iterator, which the
blocks-in-flight invariant guarantees to exist. -/
def markBlockAsReceived (now : Int) (h : Hash) (gs : GlobalState) :
    Bool × GlobalState :=
  match mapLookup gs.mapBlocksInFlight h with
  | none => (false, gs)
  | some owner =>
    match lookupState gs owner with
    | none => (true, gs)
    | some st =>
      match st.vBlocksInFlight.find? (fun qb => decide (qb.hash = h)) with
      | none => (true, gs)
      | some entry =>
        let decPeers : Bool :=
          st.nBlocksInFlightValidHeaders - b2i entry.fValidatedHeaders = 0 &&
            entry.fValidatedHeaders
        let gs1 := setState gs owner (receivedState now h st entry)
        (true,
          { gs1 with
            nPeersWithValidatedDownloads :=
              gs1.nPeersWithValidatedDownloads - b2i decPeers
            mapBlocksInFlight := mapErase gs1.mapBlocksInFlight h })

/-- Model of `MarkBlockAsInFlight` (net_processing.cpp line 307).
Returns `(inserted, pit, state)` where `pit` is the queued-block entry
the out-parameter is pointed at when the caller requested it
(`pitRequested` models passing a non-null `pit`, which also triggers
the `PartiallyDownloadedBlock` allocation). -/
def markBlockAsInFlight (now : Int) (nid : NodeId) (h : Hash)
    (pindex : Option CBlockIndexM) (pitRequested : Bool) (gs : GlobalState) :
    Bool × Option QueuedBlock × GlobalState :=
  match lookupState gs nid with
  | none => (false, none, gs)
  | some _ =>
    if mapLookup gs.mapBlocksInFlight h = some nid then
      (false, if pitRequested then findQueued gs nid h else none, gs)
    else
      let gs1 := (markBlockAsReceived now h gs).2
      match lookupState gs1 nid with
      | none => (false, none, gs1)
      | some st =>
        let qb : QueuedBlock := ⟨h, pindex, pindex.isSome, pitRequested⟩
        let st' : CNodeState := inFlightState now st qb
        let gs2 := setState gs1 nid st'
        let gs3 := { gs2 with nPeersWithValidatedDownloads :=
            if st'.nBlocksInFlightValidHeaders = 1 ∧ pindex.isSome then
              gs2.nPeersWithValidatedDownloads + 1
            else gs2.nPeersWithValidatedDownloads }
        (true, some qb,
          { gs3 with mapBlocksInFlight := (h, nid) :: gs3.mapBlocksInFlight })

/-- Model of `PeerLogicValidation::FinalizeNode` (net_processing.cpp
line 1948).  Returns `fUpdateConnectionTime` and the updated global
state.  When the peer has no state the C++ code hits an assertion; the
model returns the state unchanged. -/
def finalizeNode (nid : NodeId) (gs : GlobalState) : Bool × GlobalState :=
  match lookupState gs nid with
  | none => (false, gs)
  | some st =>
    let fUpdate : Bool := st.nMisbehavior = 0 && st.fCurrentlyConnected
    let map' := st.vBlocksInFlight.foldl (fun m qb => mapErase m qb.hash)
                  gs.mapBlocksInFlight
    (fUpdate,
      { mapNodeState := gs.mapNodeState.filter (fun p => decide (p.1 ≠ nid))
        mapBlocksInFlight := map'
        nSyncStarted := gs.nSyncStarted - b2i st.fSyncStarted
        nPreferredDownload := gs.nPreferredDownload - b2i st.fPreferredDownload
        nPeersWithValidatedDownloads :=
          gs.nPeersWithValidatedDownloads - b2i (st.nBlocksInFlightValidHeaders ≠ 0)
        g_outbound_peers_with_protect_from_disconnect :=
          gs.g_outbound_peers_with_protect_from_disconnect -
            b2i st.m_chain_sync.m_protect })

/-- Model of `Misbehaving` (net_processing.cpp line 619) acting on one
peer's state; `banscore` is the `-banscore` argument value. -/
def misbehaving (banscore : Int) (howmuch : Int) (st : CNodeState) : CNodeState :=
  if howmuch = 0 then st
  else
    let m := st.nMisbehavior + howmuch
    if m ≥ banscore ∧ m - howmuch < banscore then
      { st with nMisbehavior := m, fShouldBan := true }
    else
      { st with nMisbehavior := m }

/-- `Misbehaving` lifted to the global state (the `State(pnode)` lookup
included; a missing peer makes the call a no-op, as in the source). -/
def misbehavingGS (banscore : Int) (nid : NodeId) (howmuch : Int)
    (gs : GlobalState) : GlobalState :=
  updateState gs nid (misbehaving banscore howmuch)

/-- Result of `SendRejectsAndCheckIfBanned`: the updated node state, the
reject notifications flushed, the return value, whether `fDisconnect`
was set and whether `CConnman::Ban` was invoked. -/
structure SendRejectsResult where
  st : CNodeState
  flushed : List CBlockRejectM
  result : Bool
  disconnected : Bool
  banned : Bool
deriving DecidableEq

/-- Model of `PeerLogicValidation::SendRejectsAndCheckIfBanned`
(net_processing.cpp line 3524). -/
def sendRejectsAndCheckIfBanned (whitelisted manualConn isLocal : Bool)
    (st : CNodeState) : SendRejectsResult :=
  let flushed := st.rejects
  let st1 := { st with rejects := [] }
  if st1.fShouldBan then
    let st2 := { st1 with fShouldBan := false }
    if whitelisted then ⟨st2, flushed, true, false, false⟩
    else if manualConn then ⟨st2, flushed, true, false, false⟩
    else if isLocal then ⟨st2, flushed, true, true, false⟩
    else ⟨st2, flushed, true, true, true⟩
  else ⟨st1, flushed, false, false, false⟩

/-! Protocol constants.  `MAX_BLOCKS_TO_ANNOUNCE`, `MAX_UNCONNECTING_HEADERS`,
`MAX_HEADERS_RESULTS`, `MAX_BLOCKS_IN_TRANSIT_PER_PEER`,
`BLOCK_DOWNLOAD_WINDOW`, `CHAIN_SYNC_TIMEOUT`, the ban threshold and the
inventory type codes are declared in headers (net_processing.h,
protocol.h) that are not part of the sources under inspection; their
values are modelled from the spec's constants table.
`HEADERS_RESPONSE_TIME` is a local constant of `ConsiderEviction` in the
source itself. -/

/-- Modelled from the spec: `MAX_BLOCKS_TO_ANNOUNCE` = 8 (net_processing.h). -/
def MAX_BLOCKS_TO_ANNOUNCE : Nat := 8

/-- Modelled from the spec: `MAX_UNCONNECTING_HEADERS` = 10 (net_processing.h). -/
def MAX_UNCONNECTING_HEADERS : Int := 10

/-- Modelled from the spec: `MAX_HEADERS_RESULTS` = 2000 (net_processing.h). -/
def MAX_HEADERS_RESULTS : Nat := 2000

/-- Modelled from the spec: `MAX_BLOCKS_IN_TRANSIT_PER_PEER` = 16 (net_processing.h). -/
def MAX_BLOCKS_IN_TRANSIT_PER_PEER : Nat := 16

/-- Modelled from the spec: `BLOCK_DOWNLOAD_WINDOW` = 1024 (net_processing.h). -/
def BLOCK_DOWNLOAD_WINDOW : Nat := 1024

/-- Modelled from the spec: `CHAIN_SYNC_TIMEOUT` = 1200 s (net_processing.h). -/
def CHAIN_SYNC_TIMEOUT : Int := 1200

/-- Local constant of `ConsiderEviction` (net_processing.cpp line 3624): 120 s. -/
def HEADERS_RESPONSE_TIME : Int := 120

/-- Modelled from the spec: `MAX_OUTBOUND_PEERS_TO_PROTECT_FROM_DISCONNECT` = 4. -/
def MAX_OUTBOUND_PEERS_TO_PROTECT_FROM_DISCONNECT : Int := 4

/-- Modelled from the spec: `DEFAULT_BANSCORE_THRESHOLD` = 100. -/
def DEFAULT_BANSCORE_THRESHOLD : Int := 100

/-- Modelled from the spec: `BLOCK_DOWNLOAD_TIMEOUT_BASE` — the factor
multiplied by the consensus target spacing to obtain the base per-block
download timeout in microseconds (spec table: base timeout =
1000 · target_spacing µs). -/
def BLOCK_DOWNLOAD_TIMEOUT_BASE : Int := 1000

/-- Modelled from the spec: `BLOCK_DOWNLOAD_TIMEOUT_PER_PEER` — the
additional factor per other peer with validated downloads (spec table:
500 · target_spacing µs per peer). -/
def BLOCK_DOWNLOAD_TIMEOUT_PER_PEER : Int := 500

/-- Modelled from the spec: inventory type `MSG_BLOCK` (protocol.h). -/
def MSG_BLOCK : Nat := 2

/-- Modelled from the spec: inventory type `MSG_CMPCT_BLOCK` (protocol.h). -/
def MSG_CMPCT_BLOCK : Nat := 4

/-- Modelled from the spec: witness service flag for getdata requests
(`MSG_WITNESS_FLAG` = 1 <<< 30, protocol.h). -/
def MSG_WITNESS_FLAG : Nat := 1073741824

/-- Modelled from the spec: service bit `NODE_NETWORK` (protocol.h). -/
def NODE_NETWORK : Nat := 1

/-- Modelled from the spec: service bit `NODE_WITNESS` (protocol.h). -/
def NODE_WITNESS : Nat := 8

/-- The fields of `CNode` (connection-manager side) consulted by the
embedded handlers. -/
structure CNodeM where
  id : NodeId
  fInbound : Bool
  m_manual_connection : Bool
  fFeeler : Bool
  fOneShot : Bool
  fWhitelisted : Bool
  fClient : Bool
  nVersion : Int
  nServices : Nat
  nServicesExpected : Nat
  nRecvVersion : Int
  nSendVersion : Int
  nStartingHeight : Int
  fSuccessfullyConnected : Bool
  fDisconnect : Bool
deriving DecidableEq

/-- Model of `IsOutboundDisconnectionCandidate` (net_processing.cpp line 594). -/
def isOutboundDisconnectionCandidate (node : CNodeM) : Bool :=
  !(node.fInbound || node.m_manual_connection || node.fFeeler || node.fOneShot)

/-- Outbound wire messages produced by the embedded handlers, reduced to
the constructors and arguments the claims inspect.  A `getheaders`
carries the hash of the locator's top block (`none` models a locator
built from a null pointer, which cannot occur on reachable states). -/
inductive PMsg where
  | version : PMsg
  | verack : PMsg
  | getaddr : PMsg
  | sendheaders : PMsg
  | sendcmpct : Bool → Nat → PMsg
  | getheaders : Option Hash → Hash → PMsg
  | getdata : List (Nat × Hash) → PMsg
  | reject : Nat → PMsg
deriving DecidableEq

/-- The chain-engine interface consumed by the embedded functions.
`getBlockIndex` and `activeChain` model `GetBlockIndex` and the active
chain (a list of block hashes indexed by height).  `getAncestorFn` and
`lastCommonAncestorFn` are modelled from the spec: `CBlockIndex::GetAncestor`
and `LastCommonAncestor` belong to the chain engine (chain.cpp), which
is not among the sources under inspection; they are kept abstract.
`witnessEnabledPrev` models `IsWitnessEnabled(pindex->pprev, params)`. -/
structure ChainEnv where
  getBlockIndex : Hash → Option CBlockIndexM
  activeChain : List Hash
  nMinimumChainWork : Nat
  witnessEnabledPrev : Option Hash → Bool
  getAncestorFn : CBlockIndexM → Nat → Option CBlockIndexM
  lastCommonAncestorFn : CBlockIndexM → CBlockIndexM → Option CBlockIndexM

/-- `chainActive.Tip()`. -/
def chainTip (env : ChainEnv) : Option CBlockIndexM :=
  env.activeChain.getLast?.bind env.getBlockIndex

/-- `chainActive.Height()`. -/
def chainHeightM (env : ChainEnv) : Nat :=
  env.activeChain.length - 1

/-- `chainActive[h]`. -/
def chainAt (env : ChainEnv) (h : Nat) : Option CBlockIndexM :=
  env.activeChain[h]?.bind env.getBlockIndex

/-- `chainActive.Contains(pindex)`: the chain's entry at the block's
height is the block itself. -/
def containsActive (env : ChainEnv) (bi : CBlockIndexM) : Bool :=
  decide (env.activeChain[bi.nHeight]? = some bi.hashBlock)

/-- Model of `ProcessBlockAvailability` (net_processing.cpp line 353):
if the peer's last-unknown hash is now indexed with positive work,
promote it into `pindexBestKnownBlock` and clear the hash. -/
def processBlockAvailability (env : ChainEnv) (nid : NodeId) (gs : GlobalState) :
    GlobalState :=
  match lookupState gs nid with
  | none => gs
  | some st =>
    if st.hashLastUnknownBlock ≠ 0 then
      match env.getBlockIndex st.hashLastUnknownBlock with
      | some bi =>
        if 0 < bi.nChainWork then
          updateState gs nid (fun s =>
            { s with
              pindexBestKnownBlock :=
                match s.pindexBestKnownBlock with
                | none => some bi
                | some b => if b.nChainWork ≤ bi.nChainWork then some bi else some b
              hashLastUnknownBlock := 0 })
        else gs
      | none => gs
    else gs

/-- Model of `UpdateBlockAvailability` (net_processing.cpp line 373). -/
def updateBlockAvailability (env : ChainEnv) (nid : NodeId) (h : Hash)
    (gs : GlobalState) : GlobalState :=
  match lookupState gs nid with
  | none => gs
  | some _ =>
    let gs1 := processBlockAvailability env nid gs
    match env.getBlockIndex h with
    | some bi =>
      if 0 < bi.nChainWork then
        updateState gs1 nid (fun s =>
          { s with pindexBestKnownBlock :=
              match s.pindexBestKnownBlock with
              | none => some bi
              | some b => if b.nChainWork ≤ bi.nChainWork then some bi else some b })
      else updateState gs1 nid (fun s => { s with hashLastUnknownBlock := h })
    | none => updateState gs1 nid (fun s => { s with hashLastUnknownBlock := h })

/-- A block header as consulted by `ProcessHeadersMessage`: its
prev-block hash and its own hash (`GetHash()` is a pure function of the
header, modelled as a stored field; `0` is the null hash, which a real
double-SHA256 header hash never takes). -/
structure CBlockHeader where
  hashPrevBlock : Hash
  selfHash : Hash
deriving DecidableEq

/-- Hash of the last header of a non-empty batch (`headers.back().GetHash()`). -/
def lastSelfHash (h0 : CBlockHeader) (rest : List CBlockHeader) : Hash :=
  (rest.getLastD h0).selfHash

/-- The header-continuity loop of `ProcessHeadersMessage`
(net_processing.cpp lines 788-797): `hashLastBlock` starts null (0) and
each header must link to the previous one's hash. -/
def continuityHolds : Hash → List CBlockHeader → Bool
  | _, [] => true
  | hashLastBlock, h :: t =>
    if hashLastBlock ≠ 0 ∧ h.hashPrevBlock ≠ hashLastBlock then false
    else continuityHolds h.selfHash t

/-- Whether some header's prev-hash differs from the preceding header's
hash (the claim-level notion of a broken batch). -/
def hasDiscontinuity : List CBlockHeader → Bool
  | a :: b :: t => decide (b.hashPrevBlock ≠ a.selfHash) || hasDiscontinuity (b :: t)
  | _ => false

/-- Environment consumed by `ProcessHeadersMessage`: the chain engine
plus the outcome of `ProcessNewBlockHeaders` on a batch (`pnbh*`
fields), `IsInitialBlockDownload`, `CanDirectFetch`, the clocks, and the
local witness service bit. -/
structure HeadersEnv where
  chain : ChainEnv
  doesBlockExist : Hash → Bool
  indexBestHeader : Option CBlockIndexM
  pnbhOk : List CBlockHeader → Bool
  pnbhLast : List CBlockHeader → Option CBlockIndexM
  pnbhInvalid : List CBlockHeader → Bool
  pnbhDos : List CBlockHeader → Int
  pnbhFirstInvalidHash : List CBlockHeader → Hash
  isInitialBlockDownload : Bool
  canDirectFetch : Bool
  timeNow : Int
  timeMicros : Int
  localWitnessService : Bool

/-- Result of `ProcessHeadersMessage`: return value, updated global
state, the (possibly disconnected) node, messages pushed, and whether
the batch reached `ProcessNewBlockHeaders`. -/
structure PHMResult where
  ok : Bool
  gs : GlobalState
  node : CNodeM
  msgs : List PMsg
  submitted : Bool
deriving DecidableEq

/-- The direct-fetch collection loop of `ProcessHeadersMessage`
(net_processing.cpp lines 898-911): walk `pprev` from the last header
while off the active chain, gathering missing, not-in-flight,
witness-compatible blocks; returns the collected list (tip-most first)
and the final walk position.  Structural fuel stands for the finite
height of the walk's start. -/
def collectDirectFetch (env : ChainEnv) (gs : GlobalState) (haveWitness : Bool) :
    Nat → Option CBlockIndexM → List CBlockIndexM →
    (List CBlockIndexM × Option CBlockIndexM)
  | 0, w, acc => (acc, w)
  | _ + 1, none, acc => (acc, none)
  | fuel + 1, some w, acc =>
    if containsActive env w = false ∧ acc.length ≤ MAX_BLOCKS_IN_TRANSIT_PER_PEER then
      let acc' :=
        if w.haveData = false ∧ mapLookup gs.mapBlocksInFlight w.hashBlock = none ∧
           (env.witnessEnabledPrev w.prevHash = false ∨ haveWitness = true) then
          acc ++ [w]
        else acc
      collectDirectFetch env gs haveWitness fuel (w.prevHash.bind env.getBlockIndex) acc'
    else (acc, some w)

/-- The direct-fetch request loop (net_processing.cpp lines 925-937):
for each block, oldest first, stop at the per-peer in-flight cap,
otherwise queue a getdata inventory entry and mark the block in
flight. -/
def directFetchMark (env : HeadersEnv) (nid : NodeId) (fetchFlags : Nat) :
    List CBlockIndexM → GlobalState → List (Nat × Hash) →
    GlobalState × List (Nat × Hash)
  | [], gs, invs => (gs, invs)
  | bi :: restBlocks, gs, invs =>
    match lookupState gs nid with
    | none => (gs, invs)
    | some st =>
      if st.nBlocksInFlight ≥ (MAX_BLOCKS_IN_TRANSIT_PER_PEER : Int) then (gs, invs)
      else
        let invs' := invs ++ [(MSG_BLOCK ||| fetchFlags, bi.hashBlock)]
        let gs' := (markBlockAsInFlight env.timeMicros nid bi.hashBlock (some bi) false gs).2.2
        directFetchMark env nid fetchFlags restBlocks gs' invs'

/-- The direct-fetch phase of `ProcessHeadersMessage` (net_processing.cpp
lines 896-953), producing the updated state and the getdata message, if
any. -/
def directFetchPhase (env : HeadersEnv) (pfrom : CNodeM) (pindexLast : CBlockIndexM)
    (gs : GlobalState) : GlobalState × List PMsg :=
  let haveWitness := match lookupState gs pfrom.id with
    | some s => s.fHaveWitness
    | none => false
  let collected := collectDirectFetch env.chain gs haveWitness (pindexLast.nHeight + 1)
                     (some pindexLast) []
  let vToFetch := collected.1
  let contained := match collected.2 with
    | some w => containsActive env.chain w
    | none => false
  if contained = false then (gs, [])
  else
    let fetchFlags : Nat :=
      if env.localWitnessService = true ∧ haveWitness = true then MSG_WITNESS_FLAG else 0
    let marked := directFetchMark env pfrom.id fetchFlags vToFetch.reverse gs []
    let gs' := marked.1
    let vGetData := marked.2
    if 0 < vGetData.length then
      let supportsCmpct := match lookupState gs' pfrom.id with
        | some s => s.fSupportsDesiredCmpctVersion
        | none => false
      let prevValidChain := match pindexLast.prevHash.bind env.chain.getBlockIndex with
        | some p => p.validChain
        | none => false
      let vGetData' :=
        if supportsCmpct = true ∧ vGetData.length = 1 ∧
           gs'.mapBlocksInFlight.length = 1 ∧ prevValidChain = true then
          match vGetData with
          | (_, h) :: _ => [(MSG_CMPCT_BLOCK, h)]
          | [] => vGetData
        else vGetData
      (gs', [PMsg.getdata vGetData'])
    else (gs', [])

/-- Whether an optional best-known block has at least `w` chain work
(null pointers compare as "no"). -/
def hasWorkGe (o : Option CBlockIndexM) (w : Nat) : Bool :=
  match o with
  | some b => decide (w ≤ b.nChainWork)
  | none => false

/-- Whether an optional best-known block has chain work strictly below `w`
(null pointers compare as "no"). -/
def hasWorkLt (o : Option CBlockIndexM) (w : Nat) : Bool :=
  match o with
  | some b => decide (b.nChainWork < w)
  | none => false

/-- Model of `ProcessHeadersMessage` (net_processing.cpp line 735). -/
def processHeadersMessage (env : HeadersEnv) (banscore : Int)
    (punishDuplicateInvalid : Bool) (pfrom : CNodeM)
    (headers : List CBlockHeader) (gs : GlobalState) : PHMResult :=
  match headers with
  | [] => ⟨true, gs, pfrom, [], false⟩
  | h0 :: rest =>
    match lookupState gs pfrom.id with
    | none => ⟨true, gs, pfrom, [], false⟩
    | some nodestate =>
      if env.doesBlockExist h0.hashPrevBlock = false ∧
         (h0 :: rest).length < MAX_BLOCKS_TO_ANNOUNCE then
        -- the unconnecting-announcement branch (lines 764-786)
        let gs1 := updateState gs pfrom.id
          (fun s => { s with nUnconnectingHeaders := s.nUnconnectingHeaders + 1 })
        let gs2 := updateBlockAvailability env.chain pfrom.id (lastSelfHash h0 rest) gs1
        let gs3 :=
          if (nodestate.nUnconnectingHeaders + 1) % MAX_UNCONNECTING_HEADERS = 0 then
            misbehavingGS banscore pfrom.id 20 gs2
          else gs2
        ⟨true, gs3, pfrom,
          [PMsg.getheaders (env.indexBestHeader.map CBlockIndexM.hashBlock) 0], false⟩
      else if continuityHolds 0 (h0 :: rest) = false then
        -- non-continuous headers sequence (lines 789-797)
        ⟨false, misbehavingGS banscore pfrom.id 20 gs, pfrom, [], false⟩
      else
        let received_new_header := env.doesBlockExist (lastSelfHash h0 rest) = false
        if env.pnbhOk (h0 :: rest) = false ∧ env.pnbhInvalid (h0 :: rest) = true then
          -- invalid headers (lines 809-855)
          let gs1 :=
            if 0 < env.pnbhDos (h0 :: rest) then
              misbehavingGS banscore pfrom.id (env.pnbhDos (h0 :: rest)) gs
            else gs
          let pfrom' :=
            if punishDuplicateInvalid = true ∧
               env.doesBlockExist (env.pnbhFirstInvalidHash (h0 :: rest)) = true then
              { pfrom with fDisconnect := true }
            else pfrom
          ⟨false, gs1, pfrom', [], true⟩
        else
          -- success block (lines 858-993); also reached when
          -- ProcessNewBlockHeaders fails without an invalid validation state
          match env.pnbhLast (h0 :: rest) with
          | none => ⟨false, gs, pfrom, [], true⟩   -- C++ assert(pindexLast)
          | some pindexLast =>
            let gs1 := updateState gs pfrom.id
              (fun s => { s with nUnconnectingHeaders := 0 })
            let gs2 := updateBlockAvailability env.chain pfrom.id pindexLast.hashBlock gs1
            let tipWork := match chainTip env.chain with
              | some t => t.nChainWork
              | none => 0
            let gs3 :=
              if received_new_header ∧ tipWork < pindexLast.nChainWork then
                updateState gs2 pfrom.id
                  (fun s => { s with m_last_block_announcement := env.timeNow })
              else gs2
            let msgs1 : List PMsg :=
              if (h0 :: rest).length = MAX_HEADERS_RESULTS then
                [PMsg.getheaders (some pindexLast.hashBlock) 0]
              else []
            let fetched :=
              if env.canDirectFetch = true ∧ pindexLast.validTree = true ∧
                 tipWork ≤ pindexLast.nChainWork then
                directFetchPhase env pfrom pindexLast gs3
              else (gs3, [])
            let gs4 := fetched.1
            let msgs2 := fetched.2
            let bkb4 := (lookupState gs4 pfrom.id).bind CNodeState.pindexBestKnownBlock
            let pfrom1 :=
              if env.isInitialBlockDownload = true ∧
                 (h0 :: rest).length ≠ MAX_HEADERS_RESULTS ∧
                 hasWorkLt bkb4 env.chain.nMinimumChainWork = true ∧
                 isOutboundDisconnectionCandidate pfrom = true then
                { pfrom with fDisconnect := true }
              else pfrom
            let gs5 :=
              if pfrom1.fDisconnect = false ∧
                 isOutboundDisconnectionCandidate pfrom1 = true ∧ bkb4 ≠ none ∧
                 gs4.g_outbound_peers_with_protect_from_disconnect <
                   MAX_OUTBOUND_PEERS_TO_PROTECT_FROM_DISCONNECT ∧
                 hasWorkGe bkb4 tipWork = true ∧
                 ((lookupState gs4 pfrom.id).map
                    (fun s => s.m_chain_sync.m_protect) = some false) then
                { updateState gs4 pfrom.id
                    (fun s => { s with m_chain_sync :=
                        { s.m_chain_sync with m_protect := true } }) with
                  g_outbound_peers_with_protect_from_disconnect :=
                    gs4.g_outbound_peers_with_protect_from_disconnect + 1 }
              else gs4
            ⟨true, gs5, pfrom1, msgs1 ++ msgs2, true⟩

/-- Whether `a`'s chain work is at least `b`'s, both required non-null
(`m_work_header != nullptr && pindexBestKnownBlock != nullptr && ...`). -/
def optWorkGeOpt (a b : Option CBlockIndexM) : Bool :=
  match a, b with
  | some x, some y => decide (y.nChainWork ≤ x.nChainWork)
  | _, _ => false

/-- Model of `PeerLogicValidation::ConsiderEviction` (net_processing.cpp
line 3561) acting on one peer's state.  `tip` is `chainActive.Tip()`;
returns the updated state, the messages pushed and whether
`fDisconnect` was set. -/
def considerEviction (tip : CBlockIndexM) (timeSeconds : Int) (pto : CNodeM)
    (st : CNodeState) : CNodeState × List PMsg × Bool :=
  if st.m_chain_sync.m_protect = false ∧
     isOutboundDisconnectionCandidate pto = true ∧ st.fSyncStarted = true then
    if hasWorkGe st.pindexBestKnownBlock tip.nChainWork = true then
      if st.m_chain_sync.m_timeout ≠ 0 then
        ({ st with m_chain_sync := ⟨0, none, false, st.m_chain_sync.m_protect⟩ }, [], false)
      else (st, [], false)
    else if st.m_chain_sync.m_timeout = 0 ∨
            (st.m_chain_sync.m_work_header ≠ none ∧ st.pindexBestKnownBlock ≠ none ∧
             optWorkGeOpt st.pindexBestKnownBlock st.m_chain_sync.m_work_header = true) then
      ({ st with m_chain_sync :=
          ⟨timeSeconds + CHAIN_SYNC_TIMEOUT, some tip, false, st.m_chain_sync.m_protect⟩ },
       [], false)
    else if 0 < st.m_chain_sync.m_timeout ∧ st.m_chain_sync.m_timeout < timeSeconds then
      if st.m_chain_sync.m_sent_getheaders = true then (st, [], true)
      else
        let locator : Option Hash := match st.m_chain_sync.m_work_header with
          | some wh => wh.prevHash
          | none => none
        ({ st with m_chain_sync :=
            { st.m_chain_sync with
              m_sent_getheaders := true
              m_timeout := timeSeconds + HEADERS_RESPONSE_TIME } },
         [PMsg.getheaders locator 0], false)
    else (st, [], false)
  else (st, [], false)

/-- The per-block download-timeout check of `SendMessages`
(net_processing.cpp lines 1782-1796): with a non-empty in-flight queue,
disconnect when `now` exceeds the downloading start plus the spacing-
scaled timeout, compensated by the number of other peers with validated
downloads. -/
def blockDownloadTimedOut (powTargetSpacing now nPeersValidated : Int)
    (st : CNodeState) : Bool :=
  match st.vBlocksInFlight with
  | [] => false
  | _ :: _ =>
    let nOtherPeersWithValidatedDownloads :=
      nPeersValidated - (if 0 < st.nBlocksInFlightValidHeaders then 1 else 0)
    decide (st.nDownloadingSince + powTargetSpacing *
      (BLOCK_DOWNLOAD_TIMEOUT_BASE +
        BLOCK_DOWNLOAD_TIMEOUT_PER_PEER * nOtherPeersWithValidatedDownloads) < now)

/-- Result of a message handler: updated node, updated global state,
messages pushed, and the handler's boolean return. -/
structure MsgHandlerResult where
  node : CNodeM
  gs : GlobalState
  msgs : List PMsg
  ok : Bool
deriving DecidableEq

/-- Environment for `ProcessVersionMsg`: protocol constants declared by
the chain engine, the contract-fork signal, the incoming-nonce check and
the address-manager count. -/
structure VersionEnv where
  protocolVersion : Int
  minPeerProtoVersion : Int
  sbtcContractVersion : Int
  caddrTimeVersion : Int
  contractForkSignalled : Bool
  serviceBitsBanActive : Bool
  checkIncomingNonceOk : Bool
  isInitialBlockDownload : Bool
  addressCount : Nat

/-- Payload of a `version` message (the fields the handler uses). -/
structure VersionMsgM where
  nVersion : Int
  nServices : Nat
  nNonce : Nat
  nStartingHeight : Int
  fRelay : Bool
deriving DecidableEq

/-- Model of `UpdatePreferredDownload` (net_processing.cpp line 243). -/
def updatePreferredDownload (node : CNodeM) (gs : GlobalState) : GlobalState :=
  match lookupState gs node.id with
  | none => gs
  | some st =>
    let newPref : Bool :=
      (!node.fInbound || node.fWhitelisted) && !node.fOneShot && !node.fClient
    { updateState gs node.id (fun s => { s with fPreferredDownload := newPref }) with
      nPreferredDownload := gs.nPreferredDownload - b2i st.fPreferredDownload + b2i newPref }

/-- Model of `PeerLogicValidation::ProcessVersionMsg` (net_processing.cpp
line 2226), covering the observable effects: duplicate/services/version
checks, the self-connection nonce check, node-field assignment, witness
flag, preferred-download refresh and the pushed replies. -/
def processVersionMsg (env : VersionEnv) (banscore : Int) (msg : VersionMsgM)
    (pfrom : CNodeM) (gs : GlobalState) : MsgHandlerResult :=
  if pfrom.nVersion ≠ 0 then
    ⟨pfrom, misbehavingGS banscore pfrom.id 1 gs, [PMsg.reject 18], false⟩
  else
    let nSendVersion := min msg.nVersion env.protocolVersion
    if pfrom.nServicesExpected.land msg.nServices ≠ pfrom.nServicesExpected then
      ⟨{ pfrom with fDisconnect := true }, gs, [PMsg.reject 64], false⟩
    else if msg.nServices.land 160 ≠ 0 ∧ env.serviceBitsBanActive = true then
      ⟨{ pfrom with fDisconnect := true }, gs, [], false⟩
    else
      let minVer := if env.contractForkSignalled then env.sbtcContractVersion
                    else env.minPeerProtoVersion
      if msg.nVersion < minVer then
        ⟨{ pfrom with fDisconnect := true }, gs, [PMsg.reject 17], false⟩
      else
        let nVersionAdj := if msg.nVersion = 10300 then 300 else msg.nVersion
        if pfrom.fInbound = true ∧ env.checkIncomingNonceOk = false then
          ⟨{ pfrom with fDisconnect := true }, gs, [], true⟩
        else
          let msgs0 : List PMsg :=
            (if pfrom.fInbound then [PMsg.version] else []) ++ [PMsg.verack]
          let pfrom1 := { pfrom with
            nServices := msg.nServices
            nStartingHeight := msg.nStartingHeight
            fClient := decide (msg.nServices.land NODE_NETWORK = 0)
            nSendVersion := nSendVersion
            nVersion := nVersionAdj }
          let gs1 :=
            if msg.nServices.land NODE_WITNESS ≠ 0 then
              updateState gs pfrom.id (fun s => { s with fHaveWitness := true })
            else gs
          let gs2 := updatePreferredDownload pfrom1 gs1
          let msgs1 :=
            if pfrom1.fInbound = false ∧
               (pfrom1.fOneShot = true ∨ env.caddrTimeVersion ≤ nVersionAdj ∨
                env.addressCount < 1000) then
              msgs0 ++ [PMsg.getaddr]
            else msgs0
          let pfrom2 := if pfrom1.fFeeler then { pfrom1 with fDisconnect := true }
                        else pfrom1
          ⟨pfrom2, gs2, msgs1, true⟩

/-- Model of `PeerLogicValidation::ProcessVerAckMsg` (net_processing.cpp
line 2431). -/
def processVerAckMsg (protocolVersion sendheadersVersion shortIdsVersion : Int)
    (localWitness : Bool) (pfrom : CNodeM) (gs : GlobalState) : MsgHandlerResult :=
  let pfrom1 := { pfrom with nRecvVersion := min pfrom.nVersion protocolVersion }
  let gs1 :=
    if pfrom1.fInbound = false then
      updateState gs pfrom1.id (fun s => { s with fCurrentlyConnected := true })
    else gs
  let msgs1 := if sendheadersVersion ≤ pfrom1.nVersion then [PMsg.sendheaders] else []
  let msgs2 :=
    if shortIdsVersion ≤ pfrom1.nVersion then
      (if localWitness then [PMsg.sendcmpct false 2] else []) ++ [PMsg.sendcmpct false 1]
    else []
  ⟨{ pfrom1 with fSuccessfullyConnected := true }, gs1, msgs1 ++ msgs2, true⟩

/-- A `version` message followed by a `verack` from the same peer: the
round-trip the handshake claims quantify over.  The `verack` step runs
only when the `version` handler succeeded without requesting a
disconnect. -/
def handshakeVersionVerack (env : VersionEnv) (banscore : Int)
    (sendheadersVersion shortIdsVersion : Int) (localWitness : Bool)
    (msg : VersionMsgM) (pfrom : CNodeM) (gs : GlobalState) : MsgHandlerResult :=
  let r := processVersionMsg env banscore msg pfrom gs
  if r.ok = true ∧ r.node.fDisconnect = false then
    let v := processVerAckMsg env.protocolVersion sendheadersVersion shortIdsVersion
               localWitness r.node r.gs
    ⟨v.node, v.gs, r.msgs ++ v.msgs, v.ok⟩
  else r

/-- The block-walk of `FindNextBlocksToDownload` (net_processing.cpp
lines 519-577), processed one candidate height at a time (the source's
batches of 128 successors enumerate exactly these ancestors of
`pindexBestKnownBlock` in forward height order).  Carries the output
vector, `waitingfor` and the running `pindexLastCommonBlock`; every exit
writes the latter back into the peer's state, as the source mutates it
through the `State` pointer. -/
def findWalk (env : ChainEnv) (nid : NodeId) (count : Nat) (haveWitness : Bool)
    (bkb : CBlockIndexM) (nWindowEnd : Nat) (gs : GlobalState) :
    List Nat → List CBlockIndexM → NodeId → CBlockIndexM →
    List CBlockIndexM × NodeId × GlobalState
  | [], acc, _, lc =>
    (acc, -1, updateState gs nid (fun s => { s with pindexLastCommonBlock := some lc }))
  | hh :: restHeights, acc, waitingfor, lc =>
    match env.getAncestorFn bkb hh with
    | none =>
      (acc, -1, updateState gs nid (fun s => { s with pindexLastCommonBlock := some lc }))
    | some pindex =>
      if pindex.validTree = false then
        (acc, -1, updateState gs nid (fun s => { s with pindexLastCommonBlock := some lc }))
      else if haveWitness = false ∧ env.witnessEnabledPrev pindex.prevHash = true then
        (acc, -1, updateState gs nid (fun s => { s with pindexLastCommonBlock := some lc }))
      else if pindex.haveData = true ∨ containsActive env pindex = true then
        findWalk env nid count haveWitness bkb nWindowEnd gs restHeights acc waitingfor
          (if pindex.hasChainTx then pindex else lc)
      else if mapLookup gs.mapBlocksInFlight pindex.hashBlock = none then
        if nWindowEnd < pindex.nHeight then
          (acc, if acc.length = 0 ∧ waitingfor ≠ nid then waitingfor else -1,
           updateState gs nid (fun s => { s with pindexLastCommonBlock := some lc }))
        else
          let acc' := acc ++ [pindex]
          if acc'.length = count then
            (acc', -1,
             updateState gs nid (fun s => { s with pindexLastCommonBlock := some lc }))
          else findWalk env nid count haveWitness bkb nWindowEnd gs restHeights acc' waitingfor lc
      else
        let waitingfor' :=
          if waitingfor = -1 then (mapLookup gs.mapBlocksInFlight pindex.hashBlock).getD (-1)
          else waitingfor
        findWalk env nid count haveWitness bkb nWindowEnd gs restHeights acc waitingfor' lc

/-- Model of `FindNextBlocksToDownload` (net_processing.cpp line 473).
Returns the blocks to request, the staller (`-1` when the out-parameter
is untouched) and the updated global state. -/
def findNextBlocksToDownload (env : ChainEnv) (nid : NodeId) (count : Nat)
    (gs : GlobalState) : List CBlockIndexM × NodeId × GlobalState :=
  if count = 0 then ([], -1, gs)
  else
    match lookupState gs nid with
    | none => ([], -1, gs)
    | some _ =>
      let gs1 := processBlockAvailability env nid gs
      match lookupState gs1 nid with
      | none => ([], -1, gs1)
      | some st =>
        match chainTip env with
        | none => ([], -1, gs1)
        | some tip =>
          match st.pindexBestKnownBlock with
          | none => ([], -1, gs1)
          | some bkb =>
            if bkb.nChainWork < tip.nChainWork ∨ bkb.nChainWork < env.nMinimumChainWork then
              ([], -1, gs1)
            else
              let lc0 := match st.pindexLastCommonBlock with
                | some lc => some lc
                | none => chainAt env (min bkb.nHeight (chainHeightM env))
              match lc0 with
              | none => ([], -1, gs1)
              | some lc1 =>
                match env.lastCommonAncestorFn lc1 bkb with
                | none => ([], -1, gs1)
                | some lc =>
                  let gs2 := updateState gs1 nid
                    (fun s => { s with pindexLastCommonBlock := some lc })
                  if lc = bkb then ([], -1, gs2)
                  else
                    let nWindowEnd := lc.nHeight + BLOCK_DOWNLOAD_WINDOW
                    let nMaxHeight := min bkb.nHeight (nWindowEnd + 1)
                    findWalk env nid count st.fHaveWitness bkb nWindowEnd gs2
                      (List.range' (lc.nHeight + 1) (nMaxHeight - lc.nHeight)) [] (-1) lc

/-- The cross-table invariant maintained by the PeerStateStore (spec §3
"Invariants" and the consistency asserts of `FinalizeNode`): node keys
and in-flight keys are unique, each global tally equals the count
derived from `mapNodeState`, and the in-flight map and the per-peer
queues mirror each other. -/
def Inv (gs : GlobalState) : Prop :=
  (gs.mapNodeState.map Prod.fst).Nodup ∧
  (gs.mapBlocksInFlight.map Prod.fst).Nodup ∧
  gs.nSyncStarted = (gs.mapNodeState.countP (fun p => p.2.fSyncStarted) : Int) ∧
  gs.nPreferredDownload = (gs.mapNodeState.countP (fun p => p.2.fPreferredDownload) : Int) ∧
  gs.nPeersWithValidatedDownloads =
    (gs.mapNodeState.countP (fun p => decide (p.2.nBlocksInFlightValidHeaders ≠ 0)) : Int) ∧
  gs.g_outbound_peers_with_protect_from_disconnect =
    (gs.mapNodeState.countP (fun p => p.2.m_chain_sync.m_protect) : Int) ∧
  (∀ p ∈ gs.mapBlocksInFlight, ∃ q ∈ gs.mapNodeState,
     q.1 = p.2 ∧ p.1 ∈ q.2.vBlocksInFlight.map QueuedBlock.hash) ∧
  (∀ q ∈ gs.mapNodeState, ∀ qb ∈ q.2.vBlocksInFlight, (qb.hash, q.1) ∈ gs.mapBlocksInFlight)

instance instDecidableInv (gs : GlobalState) : Decidable (Inv gs) := by
  unfold Inv
  infer_instance

/-- The peer has a state row whose unconnecting-headers streak is zero
(used to track the streak reset through the success path of
`ProcessHeadersMessage`). -/
def StreakZero (gs : GlobalState) (x : NodeId) : Prop :=
  ∃ st, lookupState gs x = some st ∧ st.nUnconnectingHeaders = 0

/-! Concrete instances used to evaluate the theorems below on explicit
inputs. -/

/-- A peer state with a mid-way misbehavior score. -/
def exSt2 : CNodeState := { nMisbehavior := 90 }

/-- A peer state with one in-flight block and no validated headers. -/
def exSt8 : CNodeState := { vBlocksInFlight := [⟨5, none, false, false⟩] }

/-- A single connected, well-behaved peer. -/
def exGs10 : GlobalState :=
  { mapNodeState := [(1, { fCurrentlyConnected := true })]
    mapBlocksInFlight := []
    nSyncStarted := 0
    nPreferredDownload := 0
    nPeersWithValidatedDownloads := 0
    g_outbound_peers_with_protect_from_disconnect := 0 }

/-- A block-index entry of height 6 and work 100 serving as the active tip. -/
def exTip : CBlockIndexM := ⟨60, 6, 100, some 50, true, true, true, true⟩

/-- A low-work block the peer is known to have. -/
def exLowBlock : CBlockIndexM := ⟨10, 1, 10, some 0, true, true, true, true⟩

/-- The recorded chain-sync work header (work 50, parent hash 3). -/
def exWorkHeader : CBlockIndexM := ⟨40, 4, 50, some 3, true, true, true, true⟩

/-- An outbound peer eligible for the chain-sync timeout protocol. -/
def exOutboundNode : CNodeM :=
  { id := 1, fInbound := false, m_manual_connection := false, fFeeler := false
    fOneShot := false, fWhitelisted := false, fClient := false, nVersion := 70015
    nServices := 9, nServicesExpected := 1, nRecvVersion := 0, nSendVersion := 0
    nStartingHeight := 0, fSuccessfullyConnected := false, fDisconnect := false }

/-- Chain-sync state that has timed out (deadline 1000) without a
getheaders probe sent yet, on a peer lagging the recorded work header. -/
def exSt7 : CNodeState :=
  { fSyncStarted := true
    pindexBestKnownBlock := some exLowBlock
    m_chain_sync := ⟨1000, some exWorkHeader, false, false⟩ }

/-- A global state holding a single fresh peer (id 1). -/
def exGsOnePeer : GlobalState :=
  { mapNodeState := [(1, {})]
    mapBlocksInFlight := []
    nSyncStarted := 0
    nPreferredDownload := 0
    nPeersWithValidatedDownloads := 0
    g_outbound_peers_with_protect_from_disconnect := 0 }

/-- A peer contributing to every global tally, with one validated
in-flight block (hash 5). -/
def exStFull : CNodeState :=
  { fSyncStarted := true
    fPreferredDownload := true
    vBlocksInFlight := [⟨5, some exLowBlock, true, false⟩]
    nBlocksInFlight := 1
    nBlocksInFlightValidHeaders := 1
    m_chain_sync := ⟨0, none, false, true⟩ }

/-- A consistent global state with one peer owning one in-flight block. -/
def exGsFull : GlobalState :=
  { mapNodeState := [(1, exStFull)]
    mapBlocksInFlight := [(5, 1)]
    nSyncStarted := 1
    nPreferredDownload := 1
    nPeersWithValidatedDownloads := 1
    g_outbound_peers_with_protect_from_disconnect := 1 }

/-- A fresh outbound peer that has not sent its version yet. -/
def exNode9 : CNodeM := { exOutboundNode with nVersion := 0 }

/-- A fresh inbound peer that has not sent its version yet. -/
def exNodeInbound : CNodeM := { exNode9 with fInbound := true }

/-- Protocol-constant environment for the handshake examples. -/
def exEnv9 : VersionEnv :=
  { protocolVersion := 70015
    minPeerProtoVersion := 209
    sbtcContractVersion := 70016
    caddrTimeVersion := 31402
    contractForkSignalled := false
    serviceBitsBanActive := false
    checkIncomingNonceOk := true
    isInitialBlockDownload := false
    addressCount := 0 }

/-- A well-formed version payload advertising network and witness service. -/
def exMsg9 : VersionMsgM := ⟨70015, 9, 7, 0, true⟩

/-- A low-work indexed block (hash 9) that resolves a last-unknown hash. -/
def exBi9 : CBlockIndexM := ⟨9, 1, 1, some 0, true, true, true, true⟩

/-- A peer state carrying an unresolved last-unknown block hash 9. -/
def exSt4 : CNodeState := { hashLastUnknownBlock := 9 }

/-- The same state after `ProcessBlockAvailability` resolved hash 9. -/
def exSt4after : CNodeState :=
  { pindexBestKnownBlock := some exBi9, hashLastUnknownBlock := 0 }

/-- Global state with peer 1 in state `exSt4`. -/
def exGs4 : GlobalState :=
  { mapNodeState := [(1, exSt4)]
    mapBlocksInFlight := []
    nSyncStarted := 0
    nPreferredDownload := 0
    nPeersWithValidatedDownloads := 0
    g_outbound_peers_with_protect_from_disconnect := 0 }

/-- Chain environment whose active tip is `exTip` and whose index knows
only hashes 9 and 60. -/
def exEnv4 : ChainEnv :=
  { getBlockIndex := fun h => if h = 9 then some exBi9
                              else if h = 60 then some exTip else none
    activeChain := [60]
    nMinimumChainWork := 50
    witnessEnabledPrev := fun _ => false
    getAncestorFn := fun _ _ => none
    lastCommonAncestorFn := fun _ _ => none }

/-- A block-index entry for hash 7 (the last header of the counterexample
batch for the unconnecting-headers path). -/
def exBi7 : CBlockIndexM := ⟨7, 1, 1, some 5, true, true, true, true⟩

/-- Chain environment with an empty block index. -/
def exChainEnvEmpty : ChainEnv :=
  { getBlockIndex := fun _ => none
    activeChain := [60]
    nMinimumChainWork := 50
    witnessEnabledPrev := fun _ => false
    getAncestorFn := fun _ _ => none
    lastCommonAncestorFn := fun _ _ => none }

/-- Chain environment that indexes hash 7 (work 1). -/
def exChainEnv7 : ChainEnv :=
  { exChainEnvEmpty with
    getBlockIndex := fun h => if h = 7 then some exBi7 else none }

/-- Headers environment over an empty index: hash 1 exists, nothing else;
`ProcessNewBlockHeaders` succeeds vacuously. -/
def exHEnv5 : HeadersEnv :=
  { chain := exChainEnvEmpty
    doesBlockExist := fun h => decide (h = 1)
    indexBestHeader := none
    pnbhOk := fun _ => true
    pnbhLast := fun _ => none
    pnbhInvalid := fun _ => false
    pnbhDos := fun _ => 0
    pnbhFirstInvalidHash := fun _ => 0
    isInitialBlockDownload := false
    canDirectFetch := false
    timeNow := 0
    timeMicros := 0
    localWitnessService := false }

/-- Headers environment where nothing is indexed (for the unconnecting
announcement witness). -/
def exHEnv6a : HeadersEnv := { exHEnv5 with doesBlockExist := fun _ => false }

/-- Headers environment where the last announced header (hash 7) is
already indexed with positive work, while its parent is unknown. -/
def exHEnv6b : HeadersEnv := { exHEnv6a with chain := exChainEnv7 }

end NetProcessing

namespace NetProcessing

/-! Association-list lemmas used throughout. -/

theorem find_map_update_ne (l : List (NodeId × CNodeState)) (nid other : NodeId)
    (f : CNodeState → CNodeState) (hne : other ≠ nid) :
    (l.map (fun p => if p.1 = other then (p.1, f p.2) else p)).find?
        (fun p => decide (p.1 = nid)) =
      l.find? (fun p => decide (p.1 = nid)) := by
  induction l with
  | nil => rfl
  | cons p t ih =>
    by_cases hp : p.1 = other
    · have hpn : ¬ (p.1 = nid) := by
        intro h2
        exact hne (by rw [← hp, h2])
      simp [List.find?, hp, hpn, hne, ih]
    · simp only [List.map_cons, if_neg hp]
      by_cases hpn : p.1 = nid
      · simp [List.find?, hpn]
      · simp [List.find?, hpn, ih]

theorem find_map_update_self (l : List (NodeId × CNodeState)) (nid : NodeId)
    (f : CNodeState → CNodeState) :
    (l.map (fun p => if p.1 = nid then (p.1, f p.2) else p)).find?
        (fun p => decide (p.1 = nid)) =
      (l.find? (fun p => decide (p.1 = nid))).map (fun p => (p.1, f p.2)) := by
  induction l with
  | nil => rfl
  | cons p t ih =>
    by_cases hp : p.1 = nid
    · simp [List.find?, hp]
    · simp [List.find?, hp, ih]

theorem lookupState_updateState_ne (gs : GlobalState) (nid other : NodeId)
    (f : CNodeState → CNodeState) (hne : other ≠ nid) :
    lookupState (updateState gs other f) nid = lookupState gs nid := by
  unfold lookupState updateState
  simp only [find_map_update_ne gs.mapNodeState nid other f hne]

theorem lookupState_updateState_self (gs : GlobalState) (nid : NodeId)
    (f : CNodeState → CNodeState) :
    lookupState (updateState gs nid f) nid = (lookupState gs nid).map f := by
  unfold lookupState updateState
  rw [find_map_update_self gs.mapNodeState nid f]
  cases gs.mapNodeState.find? (fun p => decide (p.1 = nid)) <;> rfl

theorem lookupState_updateState (gs : GlobalState) (nid other : NodeId)
    (f : CNodeState → CNodeState) :
    lookupState (updateState gs other f) nid =
      if other = nid then (lookupState gs nid).map f else lookupState gs nid := by
  by_cases h : other = nid
  · subst h; simp [lookupState_updateState_self]
  · simp [h, lookupState_updateState_ne gs nid other f h]

/-! C10. -/

/-- C10: `FinalizeNode` reports `should_update_connection_time = true`
exactly when the departing peer's misbehavior score is zero and its
`currently_connected` flag was set. -/
theorem claim_C10_finalize_update_connection_time (gs : GlobalState) (nid : NodeId)
    (st : CNodeState) (hst : lookupState gs nid = some st) :
    ((finalizeNode nid gs).1 = true ↔
      (st.nMisbehavior = 0 ∧ st.fCurrentlyConnected = true)) := by
  simp only [finalizeNode, hst]
  constructor
  · intro h
    simpa using h
  · intro h
    simp [h.1, h.2]

/-- Witness for C10 on a concrete well-behaved connected peer. -/
theorem claim_C10_witness : (finalizeNode 1 exGs10).1 = true :=
  (claim_C10_finalize_update_connection_time exGs10 1 { fCurrentlyConnected := true }
    (by decide)).2 (by decide)

/-! C2. -/

theorem misbehaving_score (banscore howmuch : Int) (st : CNodeState)
    (h : howmuch ≠ 0) :
    (misbehaving banscore howmuch st).nMisbehavior = st.nMisbehavior + howmuch := by
  unfold misbehaving
  rw [if_neg h]
  dsimp only
  split <;> rfl

theorem misbehaving_ban_flag (banscore howmuch : Int) (st : CNodeState)
    (h : howmuch ≠ 0) :
    (misbehaving banscore howmuch st).fShouldBan =
      (st.fShouldBan ||
        decide (banscore ≤ st.nMisbehavior + howmuch ∧ st.nMisbehavior < banscore)) := by
  unfold misbehaving
  rw [if_neg h]
  dsimp only
  split
  · rename_i hc
    have h2 : banscore ≤ st.nMisbehavior + howmuch ∧ st.nMisbehavior < banscore :=
      ⟨by omega, by omega⟩
    simp [h2]
  · rename_i hc
    have h2 : ¬ (banscore ≤ st.nMisbehavior + howmuch ∧ st.nMisbehavior < banscore) := by
      intro hx
      exact hc ⟨by omega, by omega⟩
    simp [h2]

theorem sendRejects_of_not_banned (w m l : Bool) (st : CNodeState)
    (h : st.fShouldBan = false) :
    sendRejectsAndCheckIfBanned w m l st =
      ⟨{ st with rejects := [] }, st.rejects, false, false, false⟩ := by
  unfold sendRejectsAndCheckIfBanned
  have h2 : ¬ (({ st with rejects := ([] : List CBlockRejectM) } : CNodeState).fShouldBan = true) := by
    intro hx
    rw [show ({ st with rejects := ([] : List CBlockRejectM) } : CNodeState).fShouldBan
          = st.fShouldBan from rfl, h] at hx
    cases hx
  rw [if_neg h2]

theorem sendRejects_clears_flag (w m l : Bool) (st : CNodeState) :
    (sendRejectsAndCheckIfBanned w m l st).st.fShouldBan = false := by
  unfold sendRejectsAndCheckIfBanned
  by_cases hb : (({ st with rejects := ([] : List CBlockRejectM) } : CNodeState).fShouldBan = true)
  · rw [if_pos hb]
    split_ifs <;> rfl
  · rw [if_neg hb]
    simpa using hb

/-- C2: within a connection, a positive `Misbehaving` increment never
decreases the score; `should_ban` latches exactly on the call whose
increment crosses the ban threshold; and after
`SendRejectsAndCheckIfBanned` handles the latch, the flag is cleared so
a second pass issues no further disconnect or ban. -/
theorem claim_C2_misbehaving_monotonic_ban_latch (banscore howmuch : Int)
    (st : CNodeState) (w m l : Bool) (hpos : 0 < howmuch) :
    st.nMisbehavior ≤ (misbehaving banscore howmuch st).nMisbehavior ∧
    (st.fShouldBan = false →
      ((misbehaving banscore howmuch st).fShouldBan = true ↔
        (st.nMisbehavior < banscore ∧ banscore ≤ st.nMisbehavior + howmuch))) ∧
    (sendRejectsAndCheckIfBanned w m l st).st.fShouldBan = false ∧
    (sendRejectsAndCheckIfBanned w m l
        ((sendRejectsAndCheckIfBanned w m l st).st)).result = false ∧
    (sendRejectsAndCheckIfBanned w m l
        ((sendRejectsAndCheckIfBanned w m l st).st)).disconnected = false ∧
    (sendRejectsAndCheckIfBanned w m l
        ((sendRejectsAndCheckIfBanned w m l st).st)).banned = false := by
  have hne : howmuch ≠ 0 := by omega
  have hsecond := sendRejects_of_not_banned w m l
    ((sendRejectsAndCheckIfBanned w m l st).st) (sendRejects_clears_flag w m l st)
  refine ⟨?_, ?_, sendRejects_clears_flag w m l st, ?_, ?_, ?_⟩
  · rw [misbehaving_score banscore howmuch st hne]
    omega
  · intro hfb
    rw [misbehaving_ban_flag banscore howmuch st hne, hfb]
    simp only [Bool.false_or, decide_eq_true_eq]
    constructor
    · intro hx
      exact ⟨hx.2, hx.1⟩
    · intro hx
      exact ⟨hx.2, hx.1⟩
  · rw [hsecond]
  · rw [hsecond]
  · rw [hsecond]

/-- Witness for C2: a +20 increment at score 90 with threshold 100
latches the ban flag. -/
theorem claim_C2_witness : (misbehaving 100 20 exSt2).fShouldBan = true :=
  ((claim_C2_misbehaving_monotonic_ban_latch 100 20 exSt2 false false false
      (by decide)).2.1 (by decide)).mpr (by decide)

/-! C8. -/

/-- C8: with at least one in-flight block, the outbound-tick download
timeout disconnects the peer exactly when `now` exceeds
`downloading_since + target_spacing * (BLOCK_DOWNLOAD_TIMEOUT_BASE +
BLOCK_DOWNLOAD_TIMEOUT_PER_PEER * n_other)` where `n_other` subtracts
this peer when it has a validated-header block in flight.  The numeric
values of the two constants (1000 and 500 target-spacing microseconds)
are modelled from the spec, their declaring header not being among the
sources. -/
theorem claim_C8_block_download_timeout (spacing now nPeers : Int)
    (st : CNodeState) (hne : st.vBlocksInFlight ≠ []) :
    (blockDownloadTimedOut spacing now nPeers st = true ↔
      st.nDownloadingSince + spacing *
        (1000 + 500 * (nPeers - (if 0 < st.nBlocksInFlightValidHeaders then 1 else 0)))
        < now) := by
  unfold blockDownloadTimedOut
  cases hv : st.vBlocksInFlight with
  | nil => exact absurd hv hne
  | cons a t =>
    simp [BLOCK_DOWNLOAD_TIMEOUT_BASE, BLOCK_DOWNLOAD_TIMEOUT_PER_PEER]

/-- Witness for C8 on a concrete stalled peer. -/
theorem claim_C8_witness : blockDownloadTimedOut 600 1000000000 1 exSt8 = true :=
  (claim_C8_block_download_timeout 600 1000000000 1 exSt8 (by decide)).mpr (by decide)

/-! C7. -/

/-- C7 (amended): for outbound, unprotected, sync-started peers, the
chain-sync step clears the timeout state when the peer's best-known work
reaches the tip's; when the timeout has elapsed with `sent_getheaders`
false and the peer still lags the recorded work header, exactly one
getheaders from `work_header.prev` is sent, `sent_getheaders` is set and
the timeout is reset to `now + HEADERS_RESPONSE_TIME`; when it has
elapsed with `sent_getheaders` true, the peer is disconnected.  The
reachability hypothesis records that a zero timeout always comes with a
cleared work header and probe flag. -/
theorem claim_C7_consider_eviction (tip : CBlockIndexM) (now : Int) (pto : CNodeM)
    (st : CNodeState)
    (hcand : isOutboundDisconnectionCandidate pto = true)
    (hprot : st.m_chain_sync.m_protect = false)
    (hsync : st.fSyncStarted = true)
    (hreach : st.m_chain_sync.m_timeout = 0 →
      st.m_chain_sync.m_work_header = none ∧ st.m_chain_sync.m_sent_getheaders = false) :
    (hasWorkGe st.pindexBestKnownBlock tip.nChainWork = true →
      (considerEviction tip now pto st).1.m_chain_sync = ⟨0, none, false, false⟩ ∧
      (considerEviction tip now pto st).2.1 = [] ∧
      (considerEviction tip now pto st).2.2 = false) ∧
    (∀ wh : CBlockIndexM,
      hasWorkGe st.pindexBestKnownBlock tip.nChainWork = false →
      st.m_chain_sync.m_work_header = some wh →
      optWorkGeOpt st.pindexBestKnownBlock st.m_chain_sync.m_work_header = false →
      0 < st.m_chain_sync.m_timeout →
      st.m_chain_sync.m_timeout < now →
      ((st.m_chain_sync.m_sent_getheaders = false →
        (considerEviction tip now pto st).2.1 = [PMsg.getheaders wh.prevHash 0] ∧
        (considerEviction tip now pto st).1.m_chain_sync.m_sent_getheaders = true ∧
        (considerEviction tip now pto st).1.m_chain_sync.m_timeout =
          now + HEADERS_RESPONSE_TIME ∧
        (considerEviction tip now pto st).2.2 = false) ∧
       (st.m_chain_sync.m_sent_getheaders = true →
        (considerEviction tip now pto st).2.2 = true ∧
        (considerEviction tip now pto st).2.1 = [] ∧
        (considerEviction tip now pto st).1 = st))) := by
  have houter : st.m_chain_sync.m_protect = false ∧
      isOutboundDisconnectionCandidate pto = true ∧ st.fSyncStarted = true :=
    ⟨hprot, hcand, hsync⟩
  constructor
  · intro hw
    unfold considerEviction
    rw [if_pos houter, if_pos hw]
    by_cases ht : st.m_chain_sync.m_timeout ≠ 0
    · rw [if_pos ht]
      refine ⟨?_, rfl, rfl⟩
      simp [hprot]
    · rw [if_neg ht]
      have ht0 : st.m_chain_sync.m_timeout = 0 := by omega
      obtain ⟨hwh, hsg⟩ := hreach ht0
      refine ⟨?_, rfl, rfl⟩
      calc st.m_chain_sync
          = ⟨st.m_chain_sync.m_timeout, st.m_chain_sync.m_work_header,
             st.m_chain_sync.m_sent_getheaders, st.m_chain_sync.m_protect⟩ := rfl
        _ = ⟨0, none, false, false⟩ := by rw [ht0, hwh, hsg, hprot]
  · intro wh hwf hwh hoptf ht0 htlt
    unfold considerEviction
    rw [if_pos houter]
    have h1 : ¬ (hasWorkGe st.pindexBestKnownBlock tip.nChainWork = true) := by
      simp [hwf]
    rw [if_neg h1]
    have h2 : ¬ (st.m_chain_sync.m_timeout = 0 ∨
        (st.m_chain_sync.m_work_header ≠ none ∧ st.pindexBestKnownBlock ≠ none ∧
         optWorkGeOpt st.pindexBestKnownBlock st.m_chain_sync.m_work_header = true)) := by
      intro hx
      rcases hx with hx | hx
      · omega
      · rw [hoptf] at hx
        exact Bool.false_ne_true hx.2.2
    rw [if_neg h2, if_pos ⟨ht0, htlt⟩]
    constructor
    · intro hsg
      have hsgn : ¬ (st.m_chain_sync.m_sent_getheaders = true) := by simp [hsg]
      rw [if_neg hsgn]
      refine ⟨?_, rfl, rfl, rfl⟩
      simp [hwh]
    · intro hsg
      rw [if_pos hsg]
      exact ⟨rfl, rfl, rfl⟩

/-- Witness for C7: on the timed-out concrete state the probe getheaders
from `work_header.prev` is sent. -/
theorem claim_C7_witness :
    (considerEviction exTip 1005 exOutboundNode exSt7).2.1 =
      [PMsg.getheaders (some 3) 0] :=
  (((claim_C7_consider_eviction exTip 1005 exOutboundNode exSt7 (by decide) (by decide)
      (by decide) (by decide)).2 exWorkHeader (by decide) (by decide) (by decide)
      (by decide) (by decide)).1 (by decide)).1

/-- Counterexample for C7 as stated: on the same input the new timeout is
`now + HEADERS_RESPONSE_TIME` = old + 125, not old + 120, so the timeout
is not "extended by HEADERS_RESPONSE_TIME". -/
theorem claim_C7_counterexample :
    (considerEviction exTip 1005 exOutboundNode exSt7).2.1 =
        [PMsg.getheaders (some 3) 0] ∧
    (considerEviction exTip 1005 exOutboundNode exSt7).1.m_chain_sync.m_timeout ≠
        exSt7.m_chain_sync.m_timeout + HEADERS_RESPONSE_TIME := by
  decide

/-! C9. -/

theorem lookupState_updateState_isSome (gs : GlobalState) (nid other : NodeId)
    (f : CNodeState → CNodeState) :
    (lookupState (updateState gs other f) nid).isSome = (lookupState gs nid).isSome := by
  rw [lookupState_updateState]
  split
  · cases lookupState gs nid <;> rfl
  · rfl

theorem lookupState_counters_irrelevant (gs : GlobalState) (m : List (Hash × NodeId))
    (a b c d : Int) (nid : NodeId) :
    lookupState { gs with
      mapBlocksInFlight := m
      nSyncStarted := a
      nPreferredDownload := b
      nPeersWithValidatedDownloads := c
      g_outbound_peers_with_protect_from_disconnect := d } nid =
      lookupState gs nid := rfl

theorem lookupState_updatePreferredDownload_isSome (node : CNodeM) (gs : GlobalState)
    (nid : NodeId) :
    (lookupState (updatePreferredDownload node gs) nid).isSome =
      (lookupState gs nid).isSome := by
  unfold updatePreferredDownload
  cases h : lookupState gs node.id
  · rfl
  · have h2 := lookupState_updateState_isSome gs nid node.id
      (fun s => { s with fPreferredDownload :=
        (!node.fInbound || node.fWhitelisted) && !node.fOneShot && !node.fClient })
    dsimp only
    exact h2

theorem lookup_setConnected (gs : GlobalState) (x : NodeId)
    (hs : (lookupState gs x).isSome = true) :
    (lookupState (updateState gs x (fun s => { s with fCurrentlyConnected := true })) x).map
      CNodeState.fCurrentlyConnected = some true := by
  rw [lookupState_updateState_self]
  cases hl : lookupState gs x
  · rw [hl] at hs
    cases hs
  · rfl

/-- C9 (amended): an outbound peer's valid `version` followed by `verack`
sets `currently_connected = true` and pushes `sendheaders` plus the two
`sendcmpct` announcements (version 2 then version 1), given a protocol
version at both feature thresholds and a witness-serving local node; for
inbound peers the flag is left unchanged by this path. -/
theorem claim_C9_handshake_round_trip (env : VersionEnv) (banscore : Int)
    (shv siv : Int) (msg : VersionMsgM) (pfrom : CNodeM) (gs : GlobalState)
    (st : CNodeState)
    (hst : lookupState gs pfrom.id = some st)
    (hv0 : pfrom.nVersion = 0)
    (hdisc : pfrom.fDisconnect = false)
    (hsvc : pfrom.nServicesExpected.land msg.nServices = pfrom.nServicesExpected)
    (hbits : ¬ (msg.nServices.land 160 ≠ 0 ∧ env.serviceBitsBanActive = true))
    (hmin : (if env.contractForkSignalled then env.sbtcContractVersion
             else env.minPeerProtoVersion) ≤ msg.nVersion)
    (hout : pfrom.fInbound = false)
    (hfeeler : pfrom.fFeeler = false)
    (hnot10300 : msg.nVersion ≠ 10300)
    (hsh : shv ≤ msg.nVersion) (hsi : siv ≤ msg.nVersion) :
    (handshakeVersionVerack env banscore shv siv true msg pfrom gs).ok = true ∧
    (lookupState (handshakeVersionVerack env banscore shv siv true msg pfrom gs).gs
        pfrom.id).map CNodeState.fCurrentlyConnected = some true ∧
    (handshakeVersionVerack env banscore shv siv true msg pfrom gs).msgs =
      (processVersionMsg env banscore msg pfrom gs).msgs ++
        [PMsg.sendheaders, PMsg.sendcmpct false 2, PMsg.sendcmpct false 1] := by
  have hnlt : ¬ (msg.nVersion < (if env.contractForkSignalled then env.sbtcContractVersion
      else env.minPeerProtoVersion)) := not_lt.mpr hmin
  have hversion : processVersionMsg env banscore msg pfrom gs =
      ⟨{ pfrom with
           nServices := msg.nServices
           nStartingHeight := msg.nStartingHeight
           fClient := decide (msg.nServices.land NODE_NETWORK = 0)
           nSendVersion := min msg.nVersion env.protocolVersion
           nVersion := msg.nVersion },
        updatePreferredDownload
          { pfrom with
              nServices := msg.nServices
              nStartingHeight := msg.nStartingHeight
              fClient := decide (msg.nServices.land NODE_NETWORK = 0)
              nSendVersion := min msg.nVersion env.protocolVersion
              nVersion := msg.nVersion }
          (if msg.nServices.land NODE_WITNESS ≠ 0 then
            updateState gs pfrom.id (fun s => { s with fHaveWitness := true })
           else gs),
        (if pfrom.fOneShot = true ∨ env.caddrTimeVersion ≤ msg.nVersion ∨
            env.addressCount < 1000 then
          [PMsg.verack, PMsg.getaddr]
         else [PMsg.verack]), true⟩ := by
    unfold processVersionMsg
    rw [if_neg (by simp [hv0])]
    rw [if_neg (by simp [hsvc])]
    rw [if_neg hbits]
    rw [if_neg hnlt]
    rw [if_neg (by simp [hout])]
    rw [if_neg hnot10300, hout, hfeeler]
    simp
  unfold handshakeVersionVerack
  rw [hversion]
  dsimp only
  split
  · unfold processVerAckMsg
    simp only [hout, Bool.false_eq_true, if_false, if_true, if_pos hsh, if_pos hsi]
    refine ⟨trivial, ?_, by simp⟩
    apply lookup_setConnected
    rw [lookupState_updatePreferredDownload_isSome]
    split
    · rw [lookupState_updateState_isSome, hst]
      rfl
    · rw [hst]
      rfl
  · rename_i hcontra
    exact absurd ⟨rfl, hdisc⟩ hcontra

/-- Witness for C9 (amended) on a concrete outbound peer. -/
theorem claim_C9_witness :
    (lookupState (handshakeVersionVerack exEnv9 100 70012 70014 true exMsg9 exNode9
        exGsOnePeer).gs exNode9.id).map CNodeState.fCurrentlyConnected = some true :=
  (claim_C9_handshake_round_trip exEnv9 100 70012 70014 exMsg9 exNode9 exGsOnePeer {}
    (by decide) (by decide) (by decide) (by decide) (by decide) (by decide)
    (by decide) (by decide) (by decide) (by decide) (by decide)).2.1

/-! C3. -/

theorem lookupState_find_pair (gs : GlobalState) (nid : NodeId) (st : CNodeState)
    (h : lookupState gs nid = some st) :
    gs.mapNodeState.find? (fun p => decide (p.1 = nid)) = some (nid, st) := by
  unfold lookupState at h
  cases hf : gs.mapNodeState.find? (fun p => decide (p.1 = nid)) with
  | none => rw [hf] at h; cases h
  | some q =>
    rw [hf] at h
    have hq1 : q.1 = nid := by simpa using List.find?_some hf
    have hq2 : q.2 = st := by simpa using h
    rw [show q = (q.1, q.2) from rfl, hq1, hq2]

theorem lookupState_mem (gs : GlobalState) (nid : NodeId) (st : CNodeState)
    (h : lookupState gs nid = some st) : (nid, st) ∈ gs.mapNodeState :=
  List.mem_of_find?_eq_some (lookupState_find_pair gs nid st h)

theorem assoc_val_eq {α β : Type} (m : List (α × β))
    (hnd : (m.map Prod.fst).Nodup) (k : α) (a b : β)
    (ha : (k, a) ∈ m) (hb : (k, b) ∈ m) : a = b := by
  induction m with
  | nil => cases ha
  | cons p t ih =>
    rw [List.map_cons, List.nodup_cons] at hnd
    rcases List.mem_cons.mp ha with ha1 | ha1 <;> rcases List.mem_cons.mp hb with hb1 | hb1
    · have h2 : (k, a) = (k, b) := ha1.trans hb1.symm
      simpa using h2
    · exfalso
      apply hnd.1
      rw [show p.1 = k from by rw [← ha1]]
      exact List.mem_map.mpr ⟨(k, b), hb1, rfl⟩
    · exfalso
      apply hnd.1
      rw [show p.1 = k from by rw [← hb1]]
      exact List.mem_map.mpr ⟨(k, a), ha1, rfl⟩
    · exact ih hnd.2 ha1 hb1

theorem mapLookup_eq_of_mem (m : List (Hash × NodeId))
    (hnd : (m.map Prod.fst).Nodup) (h : Hash) (n : NodeId)
    (hm : (h, n) ∈ m) : mapLookup m h = some n := by
  induction m with
  | nil => cases hm
  | cons p t ih =>
    rw [List.map_cons, List.nodup_cons] at hnd
    rcases List.mem_cons.mp hm with h1 | h1
    · rw [← h1]
      simp [mapLookup, List.find?]
    · by_cases hp : p.1 = h
      · exfalso
        apply hnd.1
        rw [hp]
        exact List.mem_map.mpr ⟨(h, n), h1, rfl⟩
      · unfold mapLookup
        rw [List.find?_cons_of_neg _ (by simpa using hp)]
        exact ih hnd.2 h1

theorem find?_append_of_none {α : Type} (p : α → Bool) (l1 l2 : List α)
    (h : ∀ x ∈ l1, p x = false) : (l1 ++ l2).find? p = l2.find? p := by
  induction l1 with
  | nil => rfl
  | cons a t ih =>
    rw [List.cons_append, List.find?_cons_of_neg _ (by simp [h a (List.mem_cons_self a t)])]
    exact ih (fun x hx => h x (List.mem_cons_of_mem a hx))

theorem lookupState_rebuild (gs : GlobalState) (m : List (Hash × NodeId))
    (a b c d : Int) (nid : NodeId) :
    lookupState ⟨gs.mapNodeState, m, a, b, c, d⟩ nid = lookupState gs nid := rfl

theorem lookupState_setState_self (gs : GlobalState) (nid : NodeId)
    (st0 v : CNodeState) (h : lookupState gs nid = some st0) :
    lookupState (setState gs nid v) nid = some v := by
  unfold setState
  rw [lookupState_updateState_self, h]
  rfl

theorem lookupState_setState_ne (gs : GlobalState) (nid other : NodeId)
    (v : CNodeState) (hne : other ≠ nid) :
    lookupState (setState gs other v) nid = lookupState gs nid :=
  lookupState_updateState_ne gs nid other _ hne

theorem lookupState_markReceived_ne (now : Int) (h : Hash) (gs : GlobalState)
    (nid : NodeId) (hno : mapLookup gs.mapBlocksInFlight h ≠ some nid) :
    lookupState (markBlockAsReceived now h gs).2 nid = lookupState gs nid := by
  unfold markBlockAsReceived
  cases hml : mapLookup gs.mapBlocksInFlight h with
  | none => rfl
  | some owner =>
    dsimp only
    have hne : owner ≠ nid := by
      rintro rfl
      exact hno hml
    cases lookupState gs owner with
    | none => rfl
    | some st =>
      dsimp only
      cases st.vBlocksInFlight.find? (fun qb => decide (qb.hash = h)) with
      | none => rfl
      | some entry =>
        dsimp only
        exact lookupState_setState_ne gs nid owner _ hne


/-- The early-exit of `MarkBlockAsInFlight` when the block is already in
flight from the same peer (net_processing.cpp lines 314-323). -/
theorem markInFlight_early (gs : GlobalState) (nid : NodeId) (h : Hash)
    (pind : Option CBlockIndexM) (pit : Bool) (now : Int) (st1 : CNodeState)
    (hl : lookupState gs nid = some st1)
    (hm : mapLookup gs.mapBlocksInFlight h = some nid) :
    markBlockAsInFlight now nid h pind pit gs =
      (false, if pit then findQueued gs nid h else none, gs) := by
  unfold markBlockAsInFlight
  rw [hl]
  dsimp only
  rw [if_pos hm]

/-- After any `MarkBlockAsInFlight` call for `(nid, h)` on a consistent
state: the peer still has a state row, the in-flight map maps `h` to
`nid`, and the entry designated by the returned `pit` is the queued
block of `nid` with hash `h`. -/
theorem markInFlight_post (gs : GlobalState) (nid : NodeId) (h : Hash)
    (pind : Option CBlockIndexM) (now : Int) (st : CNodeState)
    (hInv : Inv gs) (hst : lookupState gs nid = some st) :
    (lookupState ((markBlockAsInFlight now nid h pind true gs).2.2) nid).isSome = true ∧
    mapLookup ((markBlockAsInFlight now nid h pind true gs).2.2).mapBlocksInFlight h
      = some nid ∧
    findQueued ((markBlockAsInFlight now nid h pind true gs).2.2) nid h =
      (markBlockAsInFlight now nid h pind true gs).2.1 := by
  unfold markBlockAsInFlight
  rw [hst]
  dsimp only
  by_cases hml : mapLookup gs.mapBlocksInFlight h = some nid
  · rw [if_pos hml]
    refine ⟨by rw [hst]; rfl, hml, by simp [findQueued]⟩
  · rw [if_neg hml]
    have hpres : lookupState (markBlockAsReceived now h gs).2 nid = some st := by
      rw [lookupState_markReceived_ne now h gs nid hml, hst]
    rw [hpres]
    dsimp only
    have hnotin : ∀ qb ∈ st.vBlocksInFlight, decide (qb.hash = h) = false := by
      intro qb hqb
      by_contra hx
      have hqh : qb.hash = h := by simpa using hx
      have hmem : (h, nid) ∈ gs.mapBlocksInFlight := by
        have := (hInv.2.2.2.2.2.2.2) (nid, st) (lookupState_mem gs nid st hst) qb hqb
        rwa [hqh] at this
      exact hml (mapLookup_eq_of_mem gs.mapBlocksInFlight hInv.2.1 h nid hmem)
    have hset := lookupState_setState_self (markBlockAsReceived now h gs).2 nid st
      (inFlightState now st ⟨h, pind, pind.isSome, true⟩) hpres
    constructor
    · rw [lookupState_rebuild, hset]
      rfl
    constructor
    · simp [mapLookup, List.find?]
    · unfold findQueued
      rw [lookupState_rebuild, hset]
      dsimp only [Option.bind, inFlightState]
      rw [find?_append_of_none _ st.vBlocksInFlight _ hnotin]
      simp [List.find?]

/-- C3: a second `MarkBlockAsInFlight` for the same (peer, hash) — with
any pindex/pit arguments — returns `false`, hands back the existing
queued-block entry, and leaves the whole state (per-peer counters,
queue, in-flight map and global tallies) unchanged. -/
theorem claim_C3_mark_in_flight_idempotent (gs : GlobalState) (nid : NodeId)
    (h : Hash) (pind pind2 : Option CBlockIndexM) (now now2 : Int) (pit2 : Bool)
    (st : CNodeState) (hInv : Inv gs) (hst : lookupState gs nid = some st) :
    markBlockAsInFlight now2 nid h pind2 pit2
        ((markBlockAsInFlight now nid h pind true gs).2.2) =
      (false,
       if pit2 then
         findQueued ((markBlockAsInFlight now nid h pind true gs).2.2) nid h
       else none,
       (markBlockAsInFlight now nid h pind true gs).2.2) ∧
    findQueued ((markBlockAsInFlight now nid h pind true gs).2.2) nid h =
      (markBlockAsInFlight now nid h pind true gs).2.1 := by
  obtain ⟨hsome, hmap, hpit⟩ := markInFlight_post gs nid h pind now st hInv hst
  refine ⟨?_, hpit⟩
  cases hl : lookupState ((markBlockAsInFlight now nid h pind true gs).2.2) nid with
  | none => rw [hl] at hsome; cases hsome
  | some st1 =>
    exact markInFlight_early ((markBlockAsInFlight now nid h pind true gs).2.2)
      nid h pind2 pit2 now2 st1 hl hmap

/-- Witness for C3: marking block 5 in flight twice for peer 1 returns
`false` the second time and leaves the state unchanged. -/
theorem claim_C3_witness :
    markBlockAsInFlight 7 1 5 none true
        ((markBlockAsInFlight 3 1 5 none true exGsOnePeer).2.2) =
      (false,
       findQueued ((markBlockAsInFlight 3 1 5 none true exGsOnePeer).2.2) 1 5,
       (markBlockAsInFlight 3 1 5 none true exGsOnePeer).2.2) :=
  (claim_C3_mark_in_flight_idempotent exGsOnePeer 1 5 none none 3 7 true {}
    (by decide) (by decide)).1

/-! C5. -/

theorem misbehavingGS_lookup (banscore : Int) (nid : NodeId) (howmuch : Int)
    (gs : GlobalState) (st : CNodeState) (h : lookupState gs nid = some st) :
    lookupState (misbehavingGS banscore nid howmuch gs) nid =
      some (misbehaving banscore howmuch st) := by
  unfold misbehavingGS
  rw [lookupState_updateState_self, h]
  rfl

theorem continuity_false_of_discontinuity :
    ∀ (l : List CBlockHeader), (∀ x ∈ l, x.selfHash ≠ 0) →
      hasDiscontinuity l = true → ∀ last, continuityHolds last l = false
  | [], _, hd, _ => by simp [hasDiscontinuity] at hd
  | [a], _, hd, _ => by simp [hasDiscontinuity] at hd
  | a :: b :: t, hnz, hd, last => by
    have hna : a.selfHash ≠ 0 := hnz a (by simp)
    unfold continuityHolds
    split
    · rfl
    · unfold hasDiscontinuity at hd
      rw [Bool.or_eq_true] at hd
      rcases hd with hd1 | hd2
      · unfold continuityHolds
        rw [if_pos ⟨hna, by simpa using hd1⟩]
      · exact continuity_false_of_discontinuity (b :: t)
          (fun x hx => hnz x (List.mem_cons_of_mem a hx)) hd2 a.selfHash

/-- C5: a non-empty headers batch whose first parent is known but whose
internal chain breaks is rejected before reaching the chain engine, the
only state change being exactly +20 misbehavior for the sender.  Header
hashes are assumed non-null (a real double-SHA256 hash is never the
all-zero sentinel `uint256()` that the loop uses for its first
iteration). -/
theorem claim_C5_header_continuity (env : HeadersEnv) (banscore : Int)
    (pd : Bool) (pfrom : CNodeM) (h0 : CBlockHeader) (rest : List CBlockHeader)
    (gs : GlobalState) (st : CNodeState)
    (hst : lookupState gs pfrom.id = some st)
    (hknown : env.doesBlockExist h0.hashPrevBlock = true)
    (hnz : ∀ x ∈ h0 :: rest, x.selfHash ≠ 0)
    (hdisc : hasDiscontinuity (h0 :: rest) = true) :
    processHeadersMessage env banscore pd pfrom (h0 :: rest) gs =
      ⟨false, misbehavingGS banscore pfrom.id 20 gs, pfrom, [], false⟩ ∧
    (lookupState (processHeadersMessage env banscore pd pfrom (h0 :: rest) gs).gs
        pfrom.id).map CNodeState.nMisbehavior = some (st.nMisbehavior + 20) := by
  have hcont : continuityHolds 0 (h0 :: rest) = false :=
    continuity_false_of_discontinuity _ hnz hdisc 0
  have hmain : processHeadersMessage env banscore pd pfrom (h0 :: rest) gs =
      ⟨false, misbehavingGS banscore pfrom.id 20 gs, pfrom, [], false⟩ := by
    unfold processHeadersMessage
    rw [hst]
    dsimp only
    rw [if_neg (by simp [hknown]), if_pos hcont]
  refine ⟨hmain, ?_⟩
  rw [hmain]
  dsimp only
  rw [misbehavingGS_lookup banscore pfrom.id 20 gs st hst]
  show some (misbehaving banscore 20 st).nMisbehavior = some (st.nMisbehavior + 20)
  rw [misbehaving_score banscore 20 st (by decide)]

/-- Witness for C5 on a concrete broken two-header batch. -/
theorem claim_C5_witness :
    processHeadersMessage exHEnv5 100 false exOutboundNode [⟨1, 2⟩, ⟨3, 4⟩]
        exGsOnePeer =
      ⟨false, misbehavingGS 100 exOutboundNode.id 20 exGsOnePeer,
       exOutboundNode, [], false⟩ :=
  (claim_C5_header_continuity exHEnv5 100 false exOutboundNode ⟨1, 2⟩ [⟨3, 4⟩]
    exGsOnePeer {} (by decide) (by decide) (by decide) (by decide)).1

/-! C6. -/

theorem lookup_update_fields (gs : GlobalState) (nid x : NodeId)
    (f : CNodeState → CNodeState)
    (hf1 : ∀ s, (f s).nUnconnectingHeaders = s.nUnconnectingHeaders)
    (hf2 : ∀ s, (f s).nMisbehavior = s.nMisbehavior)
    (st : CNodeState) (hst : lookupState gs x = some st) :
    ∃ st1, lookupState (updateState gs nid f) x = some st1 ∧
      st1.nUnconnectingHeaders = st.nUnconnectingHeaders ∧
      st1.nMisbehavior = st.nMisbehavior := by
  rw [lookupState_updateState]
  split
  · refine ⟨f st, ?_, hf1 st, hf2 st⟩
    rw [hst]
    rfl
  · exact ⟨st, hst, rfl, rfl⟩

theorem markReceived_fields (now : Int) (h : Hash) (gs : GlobalState) (x : NodeId)
    (st : CNodeState) (hst : lookupState gs x = some st) :
    ∃ st1, lookupState (markBlockAsReceived now h gs).2 x = some st1 ∧
      st1.nUnconnectingHeaders = st.nUnconnectingHeaders ∧
      st1.nMisbehavior = st.nMisbehavior := by
  unfold markBlockAsReceived
  cases hml : mapLookup gs.mapBlocksInFlight h with
  | none => exact ⟨st, hst, rfl, rfl⟩
  | some owner =>
    dsimp only
    cases hlo : lookupState gs owner with
    | none => exact ⟨st, hst, rfl, rfl⟩
    | some sto =>
      dsimp only
      cases hfe : sto.vBlocksInFlight.find? (fun qb => decide (qb.hash = h)) with
      | none => exact ⟨st, hst, rfl, rfl⟩
      | some entry =>
        dsimp only
        rw [lookupState_rebuild]
        by_cases hxo : owner = x
        · subst hxo
          rw [lookupState_setState_self gs owner sto _ hlo]
          have hss : st = sto := Option.some.inj (hst.symm.trans hlo)
          exact ⟨receivedState now h sto entry, rfl, by rw [hss]; rfl, by rw [hss]; rfl⟩
        · rw [lookupState_setState_ne gs x owner _ hxo]
          exact ⟨st, hst, rfl, rfl⟩

theorem markInFlight_fields (now : Int) (nid : NodeId) (h : Hash)
    (pind : Option CBlockIndexM) (pit : Bool) (gs : GlobalState) (x : NodeId)
    (st : CNodeState) (hst : lookupState gs x = some st) :
    ∃ st1, lookupState (markBlockAsInFlight now nid h pind pit gs).2.2 x = some st1 ∧
      st1.nUnconnectingHeaders = st.nUnconnectingHeaders ∧
      st1.nMisbehavior = st.nMisbehavior := by
  unfold markBlockAsInFlight
  cases hln : lookupState gs nid with
  | none => exact ⟨st, hst, rfl, rfl⟩
  | some stn =>
    dsimp only
    split
    · exact ⟨st, hst, rfl, rfl⟩
    · obtain ⟨stm, hstm, hsm, hmm⟩ := markReceived_fields now h gs x st hst
      cases hlm : lookupState (markBlockAsReceived now h gs).2 nid with
      | none =>
        dsimp only
        exact ⟨stm, hstm, hsm, hmm⟩
      | some stq =>
        dsimp only
        rw [lookupState_rebuild]
        by_cases hnx : nid = x
        · subst hnx
          rw [lookupState_setState_self _ nid stq _ hlm]
          have hq : stq = stm := Option.some.inj (hlm.symm.trans hstm)
          refine ⟨_, rfl, ?_, ?_⟩
          · show (inFlightState now stq ⟨h, pind, pind.isSome, pit⟩).nUnconnectingHeaders =
              st.nUnconnectingHeaders
            rw [show (inFlightState now stq ⟨h, pind, pind.isSome, pit⟩).nUnconnectingHeaders =
                  stq.nUnconnectingHeaders from rfl, hq, hsm]
          · show (inFlightState now stq ⟨h, pind, pind.isSome, pit⟩).nMisbehavior =
              st.nMisbehavior
            rw [show (inFlightState now stq ⟨h, pind, pind.isSome, pit⟩).nMisbehavior =
                  stq.nMisbehavior from rfl, hq, hmm]
        · rw [lookupState_setState_ne _ x nid _ hnx]
          exact ⟨stm, hstm, hsm, hmm⟩

theorem directFetchMark_fields (env : HeadersEnv) (nid : NodeId) (ff : Nat) :
    ∀ (blocks : List CBlockIndexM) (gs : GlobalState) (invs : List (Nat × Hash))
      (x : NodeId) (st : CNodeState), lookupState gs x = some st →
      ∃ st1, lookupState (directFetchMark env nid ff blocks gs invs).1 x = some st1 ∧
        st1.nUnconnectingHeaders = st.nUnconnectingHeaders ∧
        st1.nMisbehavior = st.nMisbehavior
  | [], gs, invs, x, st, hst => ⟨st, hst, rfl, rfl⟩
  | bi :: restB, gs, invs, x, st, hst => by
    unfold directFetchMark
    cases hln : lookupState gs nid with
    | none => exact ⟨st, hst, rfl, rfl⟩
    | some stn =>
      dsimp only
      split
      · exact ⟨st, hst, rfl, rfl⟩
      · obtain ⟨stm, hstm, hsm, hmm⟩ :=
          markInFlight_fields env.timeMicros nid bi.hashBlock (some bi) false gs x st hst
        obtain ⟨st2, hst2, hs2, hm2⟩ :=
          directFetchMark_fields env nid ff restB _ _ x stm hstm
        exact ⟨st2, hst2, hs2.trans hsm, hm2.trans hmm⟩

set_option maxHeartbeats 1600000 in
theorem directFetchPhase_fields (env : HeadersEnv) (node : CNodeM)
    (pl : CBlockIndexM) (gs : GlobalState) (x : NodeId) (st : CNodeState)
    (hst : lookupState gs x = some st) :
    ∃ st1, lookupState (directFetchPhase env node pl gs).1 x = some st1 ∧
      st1.nUnconnectingHeaders = st.nUnconnectingHeaders ∧
      st1.nMisbehavior = st.nMisbehavior := by
  unfold directFetchPhase
  dsimp only
  split
  · exact ⟨st, hst, rfl, rfl⟩
  · repeat' split
    all_goals
      obtain ⟨st1, h1, hs1, hm1⟩ := directFetchMark_fields env node.id _ _ gs [] x st hst
    all_goals
      first
        | exact ⟨st1, h1, hs1, hm1⟩
        | exact ⟨st, hst, rfl, rfl⟩

theorem pBA_fields (env : ChainEnv) (nid : NodeId) (gs : GlobalState) (x : NodeId)
    (st : CNodeState) (hst : lookupState gs x = some st) :
    ∃ st1, lookupState (processBlockAvailability env nid gs) x = some st1 ∧
      st1.nUnconnectingHeaders = st.nUnconnectingHeaders ∧
      st1.nMisbehavior = st.nMisbehavior := by
  unfold processBlockAvailability
  cases hln : lookupState gs nid with
  | none => exact ⟨st, hst, rfl, rfl⟩
  | some stn =>
    dsimp only
    split
    · cases env.getBlockIndex stn.hashLastUnknownBlock with
      | none => exact ⟨st, hst, rfl, rfl⟩
      | some bi =>
        dsimp only
        split
        · exact lookup_update_fields gs nid x
            (fun s =>
              { s with
                pindexBestKnownBlock :=
                  match s.pindexBestKnownBlock with
                  | none => some bi
                  | some b => if b.nChainWork ≤ bi.nChainWork then some bi else some b
                hashLastUnknownBlock := 0 })
            (fun s => rfl) (fun s => rfl) st hst
        · exact ⟨st, hst, rfl, rfl⟩
    · exact ⟨st, hst, rfl, rfl⟩

theorem uBA_fields (env : ChainEnv) (nid : NodeId) (h : Hash) (gs : GlobalState)
    (x : NodeId) (st : CNodeState) (hst : lookupState gs x = some st) :
    ∃ st1, lookupState (updateBlockAvailability env nid h gs) x = some st1 ∧
      st1.nUnconnectingHeaders = st.nUnconnectingHeaders ∧
      st1.nMisbehavior = st.nMisbehavior := by
  unfold updateBlockAvailability
  cases hln : lookupState gs nid with
  | none => exact ⟨st, hst, rfl, rfl⟩
  | some stn =>
    dsimp only
    obtain ⟨stp, hstp, hps, hpm⟩ := pBA_fields env nid gs x st hst
    cases env.getBlockIndex h with
    | none =>
      dsimp only
      obtain ⟨st1, h1, a, b⟩ :=
        lookup_update_fields (processBlockAvailability env nid gs) nid x
          (fun s => { s with hashLastUnknownBlock := h })
          (fun s => rfl) (fun s => rfl) stp hstp
      exact ⟨st1, h1, a.trans hps, b.trans hpm⟩
    | some bi =>
      dsimp only
      split
      · obtain ⟨st1, h1, a, b⟩ :=
          lookup_update_fields (processBlockAvailability env nid gs) nid x
            (fun s =>
              { s with
                pindexBestKnownBlock :=
                  match s.pindexBestKnownBlock with
                  | none => some bi
                  | some b => if b.nChainWork ≤ bi.nChainWork then some bi else some b })
            (fun s => rfl) (fun s => rfl) stp hstp
        exact ⟨st1, h1, a.trans hps, b.trans hpm⟩
      · obtain ⟨st1, h1, a, b⟩ :=
          lookup_update_fields (processBlockAvailability env nid gs) nid x
            (fun s => { s with hashLastUnknownBlock := h })
            (fun s => rfl) (fun s => rfl) stp hstp
        exact ⟨st1, h1, a.trans hps, b.trans hpm⟩

/-- `UpdateBlockAvailability` on a hash absent from the block index sets
the peer's own `hashLastUnknownBlock` to that hash. -/
theorem uBA_none_self (env : ChainEnv) (nid : NodeId) (h : Hash) (gs : GlobalState)
    (st : CNodeState) (hst : lookupState gs nid = some st)
    (hnone : env.getBlockIndex h = none) :
    ∃ st1, lookupState (updateBlockAvailability env nid h gs) nid = some st1 ∧
      st1.hashLastUnknownBlock = h ∧
      st1.nUnconnectingHeaders = st.nUnconnectingHeaders ∧
      st1.nMisbehavior = st.nMisbehavior := by
  unfold updateBlockAvailability
  rw [hst]
  dsimp only
  rw [hnone]
  obtain ⟨stp, hstp, hps, hpm⟩ := pBA_fields env nid gs nid st hst
  refine ⟨{ stp with hashLastUnknownBlock := h }, ?_, rfl, hps, hpm⟩
  rw [lookupState_updateState_self, hstp]
  rfl

theorem promote_spec (o : Option CBlockIndexM) (bi : CBlockIndexM)
    (x : Option CBlockIndexM)
    (hx : x = match o with
          | none => some bi
          | some b => if b.nChainWork ≤ bi.nChainWork then some bi else some b) :
    ∃ r, x = some r ∧ bi.nChainWork ≤ r.nChainWork := by
  subst hx
  cases o with
  | none => exact ⟨bi, rfl, le_refl _⟩
  | some b0 =>
    show ∃ r, (if b0.nChainWork ≤ bi.nChainWork then some bi else some b0) = some r ∧
      bi.nChainWork ≤ r.nChainWork
    by_cases hle : b0.nChainWork ≤ bi.nChainWork
    · exact ⟨bi, if_pos hle, le_refl _⟩
    · exact ⟨b0, if_neg hle, (not_le.mp hle).le⟩

/-- `UpdateBlockAvailability` at the target peer, all three source cases:
a hash absent from the block index (or indexed with zero work) becomes
`hashLastUnknownBlock`; a hash indexed with positive work is promoted
into `pindexBestKnownBlock` (kept only against weaker work). -/
theorem uBA_self_cases (env : ChainEnv) (nid : NodeId) (h : Hash) (gs : GlobalState)
    (st : CNodeState) (hst : lookupState gs nid = some st) :
    ∃ st1, lookupState (updateBlockAvailability env nid h gs) nid = some st1 ∧
      st1.nUnconnectingHeaders = st.nUnconnectingHeaders ∧
      st1.nMisbehavior = st.nMisbehavior ∧
      (env.getBlockIndex h = none → st1.hashLastUnknownBlock = h) ∧
      (∀ bi, env.getBlockIndex h = some bi → 0 < bi.nChainWork →
        ∃ b, st1.pindexBestKnownBlock = some b ∧ bi.nChainWork ≤ b.nChainWork) ∧
      (∀ bi, env.getBlockIndex h = some bi → ¬ 0 < bi.nChainWork →
        st1.hashLastUnknownBlock = h) := by
  unfold updateBlockAvailability
  rw [hst]
  dsimp only
  obtain ⟨stp, hstp, hps, hpm⟩ := pBA_fields env nid gs nid st hst
  cases hbi : env.getBlockIndex h with
  | none =>
    dsimp only
    refine ⟨{ stp with hashLastUnknownBlock := h }, ?_, hps, hpm,
      fun _ => rfl, ?_, ?_⟩
    · rw [lookupState_updateState_self, hstp]
      rfl
    · intro bi hbi2 _
      exact Option.noConfusion hbi2
    · intro bi hbi2 _
      exact Option.noConfusion hbi2
  | some bi0 =>
    dsimp only
    split
    · rename_i hw
      refine ⟨{ stp with pindexBestKnownBlock :=
          match stp.pindexBestKnownBlock with
          | none => some bi0
          | some b => if b.nChainWork ≤ bi0.nChainWork then some bi0 else some b },
        ?_, hps, hpm, ?_, ?_, ?_⟩
      · rw [lookupState_updateState_self, hstp]
        rfl
      · intro hn
        exact Option.noConfusion hn
      · intro bi hbi2 _
        obtain rfl : bi0 = bi := Option.some.inj hbi2
        exact promote_spec stp.pindexBestKnownBlock bi0 _ rfl
      · intro bi hbi2 hnw
        obtain rfl : bi0 = bi := Option.some.inj hbi2
        exact absurd hw hnw
    · rename_i hw
      refine ⟨{ stp with hashLastUnknownBlock := h }, ?_, hps, hpm, ?_, ?_, ?_⟩
      · rw [lookupState_updateState_self, hstp]
        rfl
      · intro hn
        exact Option.noConfusion hn
      · intro bi hbi2 hwbi
        obtain rfl : bi0 = bi := Option.some.inj hbi2
        exact absurd hwbi hw
      · intro bi hbi2 _
        rfl

theorem lookup_update_streak (gs : GlobalState) (nid x : NodeId)
    (f : CNodeState → CNodeState)
    (hf : ∀ s, (f s).nUnconnectingHeaders = s.nUnconnectingHeaders)
    (st : CNodeState) (hst : lookupState gs x = some st) :
    ∃ st1, lookupState (updateState gs nid f) x = some st1 ∧
      st1.nUnconnectingHeaders = st.nUnconnectingHeaders := by
  rw [lookupState_updateState]
  split
  · refine ⟨f st, ?_, hf st⟩
    rw [hst]
    rfl
  · exact ⟨st, hst, rfl⟩

theorem streakZero_update (gs : GlobalState) (nid x : NodeId)
    (f : CNodeState → CNodeState)
    (hf : ∀ s, (f s).nUnconnectingHeaders = s.nUnconnectingHeaders)
    (H : StreakZero gs x) : StreakZero (updateState gs nid f) x := by
  obtain ⟨st, h1, h2⟩ := H
  obtain ⟨st1, h3, h4⟩ := lookup_update_streak gs nid x f hf st h1
  exact ⟨st1, h3, h4.trans h2⟩

theorem streakZero_uBA (env : ChainEnv) (nid : NodeId) (h : Hash)
    (gs : GlobalState) (x : NodeId) (H : StreakZero gs x) :
    StreakZero (updateBlockAvailability env nid h gs) x := by
  obtain ⟨st, h1, h2⟩ := H
  obtain ⟨st1, h3, h4, _⟩ := uBA_fields env nid h gs x st h1
  exact ⟨st1, h3, h4.trans h2⟩

theorem streakZero_ite (C : Prop) [Decidable C] (g1 g2 : GlobalState) (x : NodeId)
    (H1 : StreakZero g1 x) (H2 : StreakZero g2 x) :
    StreakZero (if C then g1 else g2) x := by
  split
  · exact H1
  · exact H2

theorem streakZero_fetch (C : Prop) [Decidable C] (env : HeadersEnv) (node : CNodeM)
    (pl : CBlockIndexM) (gs : GlobalState) (x : NodeId) (H : StreakZero gs x) :
    StreakZero (if C then directFetchPhase env node pl gs else (gs, [])).1 x := by
  split
  · obtain ⟨st, h1, h2⟩ := H
    obtain ⟨st1, h3, h4, _⟩ := directFetchPhase_fields env node pl gs x st h1
    exact ⟨st1, h3, h4.trans h2⟩
  · exact H

theorem streakZero_protect (C : Prop) [Decidable C] (gs : GlobalState)
    (nid x : NodeId) (H : StreakZero gs x) :
    StreakZero (if C then
        { updateState gs nid
            (fun s => { s with m_chain_sync := { s.m_chain_sync with m_protect := true } }) with
          g_outbound_peers_with_protect_from_disconnect :=
            gs.g_outbound_peers_with_protect_from_disconnect + 1 }
      else gs) x := by
  split
  · obtain ⟨st, h1, h2⟩ := H
    obtain ⟨st1, h3, h4, _⟩ :=
      lookup_update_fields gs nid x
        (fun s => { s with m_chain_sync := { s.m_chain_sync with m_protect := true } })
        (fun s => rfl) (fun s => rfl) st h1
    refine ⟨st1, ?_, h4.trans h2⟩
    rw [lookupState_rebuild]
    exact h3
  · exact H

theorem streakZero_map (gs : GlobalState) (x : NodeId) (H : StreakZero gs x) :
    (lookupState gs x).map CNodeState.nUnconnectingHeaders = some 0 := by
  obtain ⟨st, h1, h2⟩ := H
  rw [h1]
  show some st.nUnconnectingHeaders = some 0
  rw [h2]

set_option maxHeartbeats 1600000 in
/-- A successfully processed connecting headers batch leaves the sender's
unconnecting-headers streak at zero. -/
theorem phm_success_streak (env2 : HeadersEnv) (b2 : Int) (pd2 : Bool)
    (node2 : CNodeM) (h0 : CBlockHeader) (rest : List CBlockHeader)
    (gs2 : GlobalState) (st2 : CNodeState) (bi : CBlockIndexM)
    (hst2 : lookupState gs2 node2.id = some st2)
    (hbr : ¬ (env2.doesBlockExist h0.hashPrevBlock = false ∧
        (h0 :: rest).length < MAX_BLOCKS_TO_ANNOUNCE))
    (hcont : continuityHolds 0 (h0 :: rest) = true)
    (hok : ¬ (env2.pnbhOk (h0 :: rest) = false ∧ env2.pnbhInvalid (h0 :: rest) = true))
    (hlast : env2.pnbhLast (h0 :: rest) = some bi) :
    (lookupState (processHeadersMessage env2 b2 pd2 node2 (h0 :: rest) gs2).gs
        node2.id).map CNodeState.nUnconnectingHeaders = some 0 := by
  unfold processHeadersMessage
  rw [hst2]
  dsimp only
  rw [if_neg hbr, if_neg (by simp [hcont]), if_neg hok, hlast]
  dsimp only
  apply streakZero_map
  apply streakZero_protect
  apply streakZero_fetch
  apply streakZero_ite
  · apply streakZero_update
    · exact fun s => rfl
    · apply streakZero_uBA
      refine ⟨{ st2 with nUnconnectingHeaders := 0 }, ?_, rfl⟩
      rw [lookupState_updateState_self, hst2]
      rfl
  · apply streakZero_uBA
    refine ⟨{ st2 with nUnconnectingHeaders := 0 }, ?_, rfl⟩
    rw [lookupState_updateState_self, hst2]
    rfl

theorem misbehaving_preserves (b k : Int) (s : CNodeState) :
    (misbehaving b k s).nUnconnectingHeaders = s.nUnconnectingHeaders ∧
    (misbehaving b k s).hashLastUnknownBlock = s.hashLastUnknownBlock ∧
    (misbehaving b k s).pindexBestKnownBlock = s.pindexBestKnownBlock := by
  unfold misbehaving
  split
  · exact ⟨rfl, rfl, rfl⟩
  · dsimp only
    split
    · exact ⟨rfl, rfl, rfl⟩
    · exact ⟨rfl, rfl, rfl⟩

/-- C6 (amended): an unconnecting announcement (parent unknown, fewer
than `MAX_BLOCKS_TO_ANNOUNCE` headers) always triggers a getheaders
reply, increments the unconnecting streak, and adds 20 misbehavior
exactly when the streak reaches a multiple of
`MAX_UNCONNECTING_HEADERS`; the last header's hash is recorded as
`last_unknown_block_hash` when it is not indexed (or indexed with zero
work), and is promoted into `pindexBestKnownBlock` when it is indexed
with positive work; a later successfully processed connecting batch
resets the streak to 0. -/
theorem claim_C6_unconnecting_headers (env : HeadersEnv) (banscore : Int)
    (pd : Bool) (pfrom : CNodeM) (h0 : CBlockHeader) (rest : List CBlockHeader)
    (gs : GlobalState) (st : CNodeState)
    (hst : lookupState gs pfrom.id = some st)
    (hne : env.doesBlockExist h0.hashPrevBlock = false)
    (hlen : (h0 :: rest).length < MAX_BLOCKS_TO_ANNOUNCE) :
    (processHeadersMessage env banscore pd pfrom (h0 :: rest) gs).ok = true ∧
    (processHeadersMessage env banscore pd pfrom (h0 :: rest) gs).submitted = false ∧
    (processHeadersMessage env banscore pd pfrom (h0 :: rest) gs).msgs =
      [PMsg.getheaders (env.indexBestHeader.map CBlockIndexM.hashBlock) 0] ∧
    (∃ st1, lookupState (processHeadersMessage env banscore pd pfrom (h0 :: rest) gs).gs
        pfrom.id = some st1 ∧
      st1.nUnconnectingHeaders = st.nUnconnectingHeaders + 1 ∧
      st1.nMisbehavior = st.nMisbehavior +
        (if (st.nUnconnectingHeaders + 1) % MAX_UNCONNECTING_HEADERS = 0 then 20 else 0) ∧
      (env.chain.getBlockIndex (lastSelfHash h0 rest) = none →
        st1.hashLastUnknownBlock = lastSelfHash h0 rest) ∧
      (∀ bi, env.chain.getBlockIndex (lastSelfHash h0 rest) = some bi →
        0 < bi.nChainWork →
        ∃ b, st1.pindexBestKnownBlock = some b ∧ bi.nChainWork ≤ b.nChainWork) ∧
      (∀ bi, env.chain.getBlockIndex (lastSelfHash h0 rest) = some bi →
        ¬ 0 < bi.nChainWork →
        st1.hashLastUnknownBlock = lastSelfHash h0 rest)) ∧
    (∀ (env2 : HeadersEnv) (b2 : Int) (pd2 : Bool) (node2 : CNodeM)
       (h0' : CBlockHeader) (rest' : List CBlockHeader) (gs2 : GlobalState)
       (st2 : CNodeState) (bi : CBlockIndexM),
       lookupState gs2 node2.id = some st2 →
       ¬ (env2.doesBlockExist h0'.hashPrevBlock = false ∧
          (h0' :: rest').length < MAX_BLOCKS_TO_ANNOUNCE) →
       continuityHolds 0 (h0' :: rest') = true →
       ¬ (env2.pnbhOk (h0' :: rest') = false ∧ env2.pnbhInvalid (h0' :: rest') = true) →
       env2.pnbhLast (h0' :: rest') = some bi →
       (lookupState (processHeadersMessage env2 b2 pd2 node2 (h0' :: rest') gs2).gs
           node2.id).map CNodeState.nUnconnectingHeaders = some 0) := by
  have hbranch : processHeadersMessage env banscore pd pfrom (h0 :: rest) gs =
      ⟨true,
       (if (st.nUnconnectingHeaders + 1) % MAX_UNCONNECTING_HEADERS = 0 then
          misbehavingGS banscore pfrom.id 20
            (updateBlockAvailability env.chain pfrom.id (lastSelfHash h0 rest)
              (updateState gs pfrom.id
                (fun s => { s with nUnconnectingHeaders := s.nUnconnectingHeaders + 1 })))
        else
          updateBlockAvailability env.chain pfrom.id (lastSelfHash h0 rest)
            (updateState gs pfrom.id
              (fun s => { s with nUnconnectingHeaders := s.nUnconnectingHeaders + 1 }))),
       pfrom, [PMsg.getheaders (env.indexBestHeader.map CBlockIndexM.hashBlock) 0],
       false⟩ := by
    unfold processHeadersMessage
    rw [hst]
    dsimp only
    rw [if_pos ⟨hne, hlen⟩]
  have h1 : lookupState (updateState gs pfrom.id
      (fun s => { s with nUnconnectingHeaders := s.nUnconnectingHeaders + 1 })) pfrom.id =
      some { st with nUnconnectingHeaders := st.nUnconnectingHeaders + 1 } := by
    rw [lookupState_updateState_self, hst]
    rfl
  obtain ⟨stU, hU, hUs, hUm, hUn, hUp, hUz⟩ := uBA_self_cases env.chain pfrom.id
    (lastSelfHash h0 rest) _ _ h1
  refine ⟨by rw [hbranch], by rw [hbranch], by rw [hbranch], ?_,
    phm_success_streak⟩
  rw [hbranch]
  dsimp only
  split
  · rename_i hcond
    refine ⟨misbehaving banscore 20 stU,
      misbehavingGS_lookup banscore pfrom.id 20 _ stU hU, ?_, ?_, ?_, ?_, ?_⟩
    · rw [(misbehaving_preserves banscore 20 stU).1, hUs]
    · rw [misbehaving_score banscore 20 stU (by decide), hUm]
    · intro hn
      rw [(misbehaving_preserves banscore 20 stU).2.1]
      exact hUn hn
    · intro bi hbi hw
      obtain ⟨b, hb, hbl⟩ := hUp bi hbi hw
      refine ⟨b, ?_, hbl⟩
      rw [(misbehaving_preserves banscore 20 stU).2.2]
      exact hb
    · intro bi hbi hnw
      rw [(misbehaving_preserves banscore 20 stU).2.1]
      exact hUz bi hbi hnw
  · rename_i hcond
    refine ⟨stU, hU, ?_, ?_, hUn, hUp, hUz⟩
    · rw [hUs]
    · rw [hUm]
      show st.nMisbehavior = st.nMisbehavior + 0
      omega

/-- Witness for C6 (amended) on a one-header unconnecting announcement. -/
theorem claim_C6_witness :
    (processHeadersMessage exHEnv6a 100 false exOutboundNode [⟨5, 7⟩] exGsOnePeer).msgs =
      [PMsg.getheaders none 0] :=
  (claim_C6_unconnecting_headers exHEnv6a 100 false exOutboundNode ⟨5, 7⟩ []
    exGsOnePeer {} (by decide) (by decide) (by decide)).2.2.1

/-- Counterexample for C6 as stated: when the announced last header (hash
7) is already indexed with positive work, the unconnecting branch runs
(the getheaders reply is sent) but `last_unknown_block_hash` is not set
to 7 — `UpdateBlockAvailability` promotes the best-known block instead. -/
theorem claim_C6_counterexample :
    (processHeadersMessage exHEnv6b 100 false exOutboundNode [⟨5, 7⟩]
        exGsOnePeer).msgs = [PMsg.getheaders none 0] ∧
    (lookupState (processHeadersMessage exHEnv6b 100 false exOutboundNode [⟨5, 7⟩]
        exGsOnePeer).gs 1).map CNodeState.hashLastUnknownBlock ≠ some 7 := by
  decide

/-! C4. -/

/-- C4 (amended): `FindNextBlocksToDownload` returns no blocks when the
peer's (refreshed) best-known block is null or its work is below the
active tip's or below `nMinimumChainWork`; on that path the staller
out-parameter is untouched and the peer's state is unchanged except for
the `ProcessBlockAvailability` refresh that the function performs first. -/
theorem claim_C4_find_next_blocks_guard (env : ChainEnv) (nid : NodeId)
    (count : Nat) (gs : GlobalState) (st0 st1 : CNodeState) (tip : CBlockIndexM)
    (hc : ¬ count = 0)
    (hst0 : lookupState gs nid = some st0)
    (hst1 : lookupState (processBlockAvailability env nid gs) nid = some st1)
    (htip : chainTip env = some tip)
    (hfail : hasWorkGe st1.pindexBestKnownBlock tip.nChainWork = false ∨
             hasWorkGe st1.pindexBestKnownBlock env.nMinimumChainWork = false) :
    findNextBlocksToDownload env nid count gs =
      ([], -1, processBlockAvailability env nid gs) := by
  unfold findNextBlocksToDownload
  rw [if_neg hc, hst0]
  dsimp only
  rw [hst1]
  dsimp only
  rw [htip]
  dsimp only
  cases hbk : st1.pindexBestKnownBlock with
  | none => rfl
  | some bkb =>
    dsimp only
    have hlt : bkb.nChainWork < tip.nChainWork ∨ bkb.nChainWork < env.nMinimumChainWork := by
      rcases hfail with hf | hf <;> rw [hbk] at hf <;>
        simp only [hasWorkGe, decide_eq_false_iff_not, not_le] at hf
      · exact Or.inl hf
      · exact Or.inr hf
    rw [if_pos hlt]

/-- Witness for C4 (amended) on a peer whose refreshed best-known block
has insufficient work. -/
theorem claim_C4_witness :
    findNextBlocksToDownload exEnv4 1 16 exGs4 =
      ([], -1, processBlockAvailability exEnv4 1 exGs4) :=
  claim_C4_find_next_blocks_guard exEnv4 1 16 exGs4 exSt4 exSt4after exTip
    (by decide) (by decide) (by decide) (by decide) (Or.inl (by decide))

/-- Counterexample for C4 as stated: on the same input the output vector
is empty, yet the peer's state is not unchanged — `ProcessBlockAvailability`
promoted the previously unknown hash 9 into `pindexBestKnownBlock`. -/
theorem claim_C4_counterexample :
    (findNextBlocksToDownload exEnv4 1 16 exGs4).1 = [] ∧
    (findNextBlocksToDownload exEnv4 1 16 exGs4).2.2 ≠ exGs4 := by
  decide

/-! C1. -/

theorem countP_filter_key (l : List (NodeId × CNodeState)) (nid : NodeId)
    (st : CNodeState) (p : NodeId × CNodeState → Bool)
    (hnd : (l.map Prod.fst).Nodup)
    (hfind : l.find? (fun q => decide (q.1 = nid)) = some (nid, st)) :
    l.countP p = (l.filter (fun q => decide (q.1 ≠ nid))).countP p +
      (if p (nid, st) then 1 else 0) := by
  induction l with
  | nil => cases hfind
  | cons a t ih =>
    rw [List.map_cons, List.nodup_cons] at hnd
    by_cases ha : a.1 = nid
    · have hfa : a = (nid, st) := by
        rw [List.find?_cons_of_pos _ (by simpa using ha)] at hfind
        exact Option.some.inj hfind
      have hnotin : ∀ q ∈ t, (fun q => decide (q.1 ≠ nid)) q = true := by
        intro q hq
        have hqn : q.1 ≠ nid := by
          intro he
          apply hnd.1
          rw [ha]
          exact List.mem_map.mpr ⟨q, hq, he⟩
        simpa using hqn
      rw [List.countP_cons, List.filter_cons_of_neg (by simp [ha]),
        List.filter_eq_self.mpr hnotin, hfa]
    · have hfind' : t.find? (fun q => decide (q.1 = nid)) = some (nid, st) := by
        rw [List.find?_cons_of_neg _ (by simpa using ha)] at hfind
        exact hfind
      rw [List.countP_cons, List.filter_cons_of_pos (by simpa using ha),
        List.countP_cons, ih hnd.2 hfind']
      omega

theorem mem_foldl_erase :
    ∀ (qbs : List QueuedBlock) (m : List (Hash × NodeId)) (p : Hash × NodeId),
      (p ∈ qbs.foldl (fun acc qb => mapErase acc qb.hash) m ↔
        p ∈ m ∧ ∀ qb ∈ qbs, p.1 ≠ qb.hash)
  | [], m, p => by simp
  | qb0 :: qbs, m, p => by
    rw [List.foldl_cons, mem_foldl_erase qbs (mapErase m qb0.hash) p]
    unfold mapErase
    simp only [List.mem_filter, decide_eq_true_eq, List.mem_cons]
    constructor
    · rintro ⟨⟨hm, hne⟩, hall⟩
      refine ⟨hm, fun qb hq => ?_⟩
      rcases hq with rfl | hq
      · exact hne
      · exact hall qb hq
    · rintro ⟨hm, hall⟩
      exact ⟨⟨hm, hall qb0 (Or.inl rfl)⟩, fun qb hq => hall qb (Or.inr hq)⟩

theorem foldl_erase_sublist :
    ∀ (qbs : List QueuedBlock) (m : List (Hash × NodeId)),
      (qbs.foldl (fun acc qb => mapErase acc qb.hash) m).Sublist m
  | [], m => List.Sublist.refl m
  | qb0 :: qbs, m => by
    rw [List.foldl_cons]
    exact (foldl_erase_sublist qbs (mapErase m qb0.hash)).trans (List.filter_sublist m)

theorem counter_eq_helper (c : Int) (n m : Nat) (b : Bool)
    (hc : c = (n : Int)) (hn : n = m + (if b then 1 else 0)) :
    c - b2i b = (m : Int) := by
  subst hc
  rw [hn]
  cases b <;> simp [b2i] <;> push_cast <;> omega

/-- C1: `FinalizeNode` erases every entry of the departing peer's queue
from the global in-flight map, reverses the peer's contribution to each
of the four global tallies, and preserves the PeerStateStore invariant;
consequently an empty `node_state` table forces an empty in-flight map
and zero tallies. -/
theorem claim_C1_finalize_node_invariants (gs : GlobalState) (nid : NodeId)
    (st : CNodeState) (hInv : Inv gs) (hst : lookupState gs nid = some st) :
    Inv (finalizeNode nid gs).2 ∧
    (∀ h ∈ st.vBlocksInFlight.map QueuedBlock.hash,
       mapLookup (finalizeNode nid gs).2.mapBlocksInFlight h = none) ∧
    (finalizeNode nid gs).2.nSyncStarted = gs.nSyncStarted - b2i st.fSyncStarted ∧
    (finalizeNode nid gs).2.nPreferredDownload =
      gs.nPreferredDownload - b2i st.fPreferredDownload ∧
    (finalizeNode nid gs).2.nPeersWithValidatedDownloads =
      gs.nPeersWithValidatedDownloads - b2i (st.nBlocksInFlightValidHeaders ≠ 0) ∧
    (finalizeNode nid gs).2.g_outbound_peers_with_protect_from_disconnect =
      gs.g_outbound_peers_with_protect_from_disconnect - b2i st.m_chain_sync.m_protect ∧
    (∀ gs2, Inv gs2 → gs2.mapNodeState = [] →
       gs2.mapBlocksInFlight = [] ∧ gs2.nSyncStarted = 0 ∧
       gs2.nPreferredDownload = 0 ∧ gs2.nPeersWithValidatedDownloads = 0 ∧
       gs2.g_outbound_peers_with_protect_from_disconnect = 0) := by
  obtain ⟨hnd, hmapnd, hsync, hpref, hvalid, hprot, hfwd, hbwd⟩ := hInv
  have hfind := lookupState_find_pair gs nid st hst
  have hmem := lookupState_mem gs nid st hst
  have heq : (finalizeNode nid gs).2 =
      ⟨gs.mapNodeState.filter (fun p => decide (p.1 ≠ nid)),
       st.vBlocksInFlight.foldl (fun m qb => mapErase m qb.hash) gs.mapBlocksInFlight,
       gs.nSyncStarted - b2i st.fSyncStarted,
       gs.nPreferredDownload - b2i st.fPreferredDownload,
       gs.nPeersWithValidatedDownloads - b2i (st.nBlocksInFlightValidHeaders ≠ 0),
       gs.g_outbound_peers_with_protect_from_disconnect -
         b2i st.m_chain_sync.m_protect⟩ := by
    unfold finalizeNode
    rw [hst]
  have hempty : ∀ gs2, Inv gs2 → gs2.mapNodeState = [] →
      gs2.mapBlocksInFlight = [] ∧ gs2.nSyncStarted = 0 ∧
      gs2.nPreferredDownload = 0 ∧ gs2.nPeersWithValidatedDownloads = 0 ∧
      gs2.g_outbound_peers_with_protect_from_disconnect = 0 := by
    intro gs2 hI2 hE
    obtain ⟨_, _, h3, h4, h5, h6, h7, _⟩ := hI2
    refine ⟨?_, ?_, ?_, ?_, ?_⟩
    · rw [List.eq_nil_iff_forall_not_mem]
      intro p hp
      obtain ⟨q, hq, _⟩ := h7 p hp
      rw [hE] at hq
      cases hq
    · rw [h3, hE]
      rfl
    · rw [h4, hE]
      rfl
    · rw [h5, hE]
      rfl
    · rw [h6, hE]
      rfl
  rw [heq]
  refine ⟨?_, ?_, rfl, rfl, rfl, rfl, hempty⟩
  · unfold Inv
    dsimp only
    refine ⟨?_, ?_, ?_, ?_, ?_, ?_, ?_, ?_⟩
    · exact hnd.sublist ((List.filter_sublist _).map Prod.fst)
    · exact hmapnd.sublist ((foldl_erase_sublist _ _).map Prod.fst)
    · exact counter_eq_helper gs.nSyncStarted _ _ _ hsync
        (countP_filter_key gs.mapNodeState nid st (fun q => q.2.fSyncStarted)
          hnd hfind)
    · exact counter_eq_helper gs.nPreferredDownload _ _ _ hpref
        (countP_filter_key gs.mapNodeState nid st (fun q => q.2.fPreferredDownload)
          hnd hfind)
    · exact counter_eq_helper gs.nPeersWithValidatedDownloads _ _ _ hvalid
        (countP_filter_key gs.mapNodeState nid st
          (fun q => decide (q.2.nBlocksInFlightValidHeaders ≠ 0)) hnd hfind)
    · exact counter_eq_helper gs.g_outbound_peers_with_protect_from_disconnect _ _ _
        hprot
        (countP_filter_key gs.mapNodeState nid st
          (fun q => q.2.m_chain_sync.m_protect) hnd hfind)
    · intro p hp
      rw [mem_foldl_erase] at hp
      obtain ⟨hpm, hpnot⟩ := hp
      obtain ⟨q, hq, hq1, hq2⟩ := hfwd p hpm
      have hqnid : q.1 ≠ nid := by
        intro he
        have hqe : (nid, q.2) ∈ gs.mapNodeState := by
          rw [← he]
          exact hq
        have hq2st : q.2 = st := assoc_val_eq _ hnd nid q.2 st hqe hmem
        rw [hq2st] at hq2
        obtain ⟨qb, hqb, hqbh⟩ := List.mem_map.mp hq2
        exact (hpnot qb hqb) hqbh.symm
      exact ⟨q, List.mem_filter.mpr ⟨hq, by simpa using hqnid⟩, hq1, hq2⟩
    · intro q hq qb hqb
      obtain ⟨hqmem, hqne⟩ := List.mem_filter.mp hq
      have hqne' : q.1 ≠ nid := by simpa using hqne
      have hin : (qb.hash, q.1) ∈ gs.mapBlocksInFlight := hbwd q hqmem qb hqb
      rw [mem_foldl_erase]
      refine ⟨hin, ?_⟩
      intro qb' hqb' he
      have hin2 : (qb'.hash, nid) ∈ gs.mapBlocksInFlight := hbwd (nid, st) hmem qb' hqb'
      rw [← he] at hin2
      exact hqne' (assoc_val_eq _ hmapnd qb.hash q.1 nid hin hin2)
  · intro h hh
    obtain ⟨qb, hqb, hqbh⟩ := List.mem_map.mp hh
    unfold mapLookup
    rw [show (st.vBlocksInFlight.foldl (fun m qb => mapErase m qb.hash)
          gs.mapBlocksInFlight).find? (fun p => decide (p.1 = h)) = none from ?_]
    · rfl
    · rw [List.find?_eq_none]
      intro x hx
      rw [mem_foldl_erase] at hx
      simp only [decide_eq_true_eq]
      intro hxe
      exact (hx.2 qb hqb) (by rw [hxe, hqbh])

/-- Witness for C1: removing the single fully loaded peer restores a
consistent empty store. -/
theorem claim_C1_witness : Inv (finalizeNode 1 exGsFull).2 :=
  (claim_C1_finalize_node_invariants exGsFull 1 exStFull (by decide) (by decide)).1

/-- Counterexample for C9 as stated: for an inbound peer the same valid
handshake leaves `currently_connected = false`. -/
theorem claim_C9_counterexample :
    (handshakeVersionVerack exEnv9 100 70012 70014 true exMsg9 exNodeInbound
        exGsOnePeer).ok = true ∧
    (lookupState (handshakeVersionVerack exEnv9 100 70012 70014 true exMsg9 exNodeInbound
        exGsOnePeer).gs exNodeInbound.id).map CNodeState.fCurrentlyConnected =
      some false := by
  decide

end NetProcessing
